import Mathlib

/-!
# promecieus: resolution of the Prometheus archive of a Prow job

A shallow embedding of `helpers.go`: the link extractor `getLinksFromURL`,
the timestamp fetcher `getTimeStampFromProwJSON`, the directory resolver
`getTarURLFromProw` and the archive validation of `getMetricsTar`.

Go strings are modelled by `String`, Go `int` by `Int` (64-bit platform), a
Go `(T, error)` result whose value is ignored on error by `Except String T`,
and one whose value is returned next to the error by `T × Option String`.
A run-time panic of the goroutine is the `none` of an `Option`.

The remote side is a `World`: a function from URL to the result of a GET and
of a HEAD request.  Every function that talks to the network also returns the
list of requests it issued, in order.  Library code (`net/url`, `x/net/html`,
`encoding/json`, `strconv.Quote`) is a parameter, collected in `Lib`.
-/

namespace Promecieus

/-! ## The Go standard library functions used by the source -/

namespace strings

/-- The pieces of `s` between the occurrences of the separator `sep`. -/
def splitChars (sep : Char) : List Char → List (List Char)
  | [] => [[]]
  | c :: cs =>
    if c = sep then [] :: splitChars sep cs
    else
      match splitChars sep cs with
      | [] => [[c]]
      | h :: t => (c :: h) :: t

/-- Go `strings.Split(s, sep)` for a separator of one character, the only way
the source calls it (`strings.Split(link, "/")`).  `Split "" sep` is `[""]`. -/
def Split (s : String) (sep : Char) : List String :=
  (splitChars sep s.data).map String.mk

/-- Go `strings.HasSuffix(s, suffix)`. -/
def HasSuffix (s suffix : String) : Bool :=
  suffix.data.isSuffixOf s.data

/-- Is `sub` a block of consecutive characters of the list? -/
def containsChars (sub : List Char) : List Char → Bool
  | [] => sub.isEmpty
  | c :: cs => sub.isPrefixOf (c :: cs) || containsChars sub cs

/-- Go `strings.Contains(s, substr)`. -/
def Contains (s substr : String) : Bool :=
  containsChars substr.data s.data

/-- The scan of `strings.Replace` for a non-empty `old`: `skip` counts the
characters of a match that is being stepped over. -/
def replaceFrom (old new : List Char) : Nat → List Char → List Char
  | _, [] => []
  | skip + 1, _ :: cs => replaceFrom old new skip cs
  | 0, c :: cs =>
    if old.isPrefixOf (c :: cs) then new ++ replaceFrom old new (old.length - 1) cs
    else c :: replaceFrom old new 0 cs

/-- Go `strings.Replace(s, old, new, -1)`: every non-overlapping occurrence of
`old`, from the left, is replaced by `new`.  For an empty `old`, `new` is
inserted at the start and after every character. -/
def Replace (s old new : String) : String :=
  if old.data.isEmpty then
    ⟨new.data ++ s.data.flatMap (fun c => c :: new.data)⟩
  else
    ⟨replaceFrom old.data new.data 0 s.data⟩

end strings

namespace strconv

/-- The two causes of a `strconv.NumError`. -/
inductive NumErr
  | ErrSyntax
  | ErrRange
  deriving DecidableEq, Repr

/-- The text of `ErrSyntax` and `ErrRange`. -/
def NumErr.Error : NumErr → String
  | .ErrSyntax => "invalid syntax"
  | .ErrRange => "value out of range"

/-- The digit loop of `strconv.ParseUint(s, 10, 64)`: a character that is not
a decimal digit is a syntax error, an overflow of the 64-bit accumulator a
range error, whichever comes first from the left. -/
def parseUintLoop : Nat → List Char → Except NumErr Nat
  | n, [] => .ok n
  | n, c :: cs =>
    if 48 ≤ c.toNat ∧ c.toNat ≤ 57 then
      if n ≥ (2 ^ 64 - 1) / 10 + 1 then .error .ErrRange
      else
        let n1 := n * 10 + (c.toNat - 48)
        if n1 > 2 ^ 64 - 1 then .error .ErrRange else parseUintLoop n1 cs
    else .error .ErrSyntax

/-- Go `strconv.ParseInt(s, 10, 0)` with a 64-bit `int`: an optional sign,
then at least one decimal digit, and a value within `-2^63 .. 2^63 - 1`. -/
def parseInt (s : String) : Except NumErr Int :=
  let (neg, digits) : Bool × List Char :=
    match s.data with
    | '-' :: r => (true, r)
    | '+' :: r => (false, r)
    | r => (false, r)
  if digits.isEmpty then .error .ErrSyntax
  else
    match parseUintLoop 0 digits with
    | .error .ErrSyntax => .error .ErrSyntax
    | .error .ErrRange => .error .ErrRange
    | .ok un =>
      if !neg ∧ un ≥ 2 ^ 63 then .error .ErrRange
      else if neg ∧ un > 2 ^ 63 then .error .ErrRange
      else .ok (if neg then -(un : Int) else (un : Int))

/-- Go `strconv.Atoi(s)`; the error is the text of the `*NumError`, in which
`quote` stands for `strconv.Quote`. -/
def Atoi (quote : String → String) (s : String) : Except String Int :=
  match parseInt s with
  | .ok n => .ok n
  | .error e => .error ("strconv.Atoi: parsing " ++ quote s ++ ": " ++ e.Error)

end strconv

/-- Go `fmt` of a `[]string` under the verb `%v`: `[a b c]`. -/
def fmtStrings (l : List String) : String :=
  "[" ++ " ".intercalate l ++ "]"

/-- Go `xs[i]` on a slice with an `int` index: `none` is the run-time panic
"index out of range". -/
def index {α : Type} (xs : List α) (i : Int) : Option α :=
  if 0 ≤ i ∧ i < (xs.length : Int) then xs[i.toNat]? else none

/-! ## Data model -/

/-- An `html.Attribute`. -/
structure Attribute where
  Namespace : String
  Key : String
  Val : String
  deriving DecidableEq, Repr

/-- An `html.TokenType`. -/
inductive TokenType
  | ErrorToken
  | TextToken
  | StartTagToken
  | EndTagToken
  | SelfClosingTagToken
  | CommentToken
  | DoctypeToken
  deriving DecidableEq, Repr

/-- An `html.Token`, as returned by `z.Token()` after `z.Next()`. -/
structure Token where
  Typ : TokenType
  Data : String
  Attr : List Attribute
  deriving DecidableEq, Repr

/-- A response body: the bytes that can be read from it, and the error, if
any, that ends the reading instead of the end of the stream. -/
structure Body where
  data : String
  readErr : Option String
  deriving DecidableEq, Repr

/-- The fields of an `http.Response` the source reads; `ContentLength` is the
value of the `content-length` header when the response has one. -/
structure Response where
  Status : String
  StatusCode : Int
  ContentLength : Option String
  Body : Body
  deriving DecidableEq, Repr

/-- Go `resp.Header.Get("content-length")`: the empty string when absent. -/
def Response.headerContentLength (resp : Response) : String :=
  resp.ContentLength.getD ""

/-- A request sent by the HTTP client. -/
inductive Request
  | get (url : String)
  | head (url : String)
  deriving DecidableEq, Repr

/-- The remote side: the outcome of `netClient.Get` and `netClient.Head` at
every URL; `.error` carries the text of the transport error. -/
structure World where
  get : String → Except String Response
  head : String → Except String Response

/-- The library functions the source calls and that are not modelled here.
`urlParse` is `url.Parse` followed by `URL.String()` (the source only ever
uses a parsed URL through its `String()`), `tokenize` gives the tokens that
`z.Next()` and `z.Token()` yield on a body, `jsonUnmarshal` is
`json.Unmarshal` into a `ProwJSON` followed by reading `Timestamp`, and
`quote` is `strconv.Quote`. -/
structure Lib where
  urlParse : String → Except String String
  tokenize : String → List Token
  jsonUnmarshal : String → Except String Int
  quote : String → String

/-- Go `time.Time`: the zero value, or `time.Unix(sec, 0)`. -/
inductive Time
  | zero
  | unix (sec : Int)
  deriving DecidableEq, Repr

/-- ProwInfo stores all links and data collected via scanning for metrics. -/
structure ProwInfo where
  Started : Time := .zero
  Finished : Time := .zero
  MetricsURL : String := ""
  deriving DecidableEq, Repr

def prowPrefix : String := "https://prow.svc.ci.openshift.org/view"
def gcsPrefix : String := "https://gcsweb-ci.svc.ci.openshift.org"
def storagePrefix : String := "https://storage.googleapis.com"
def promTarPath : String := "metrics/prometheus.tar"
def extraPath : String := "gather-extra"
def e2ePrefix : String := "e2e"

/-- The outcome of a function that talks to the network: the requests it
sent, in order, and what it returned; `out = none` is a run-time panic. -/
structure Run (α : Type) where
  fetches : List Request
  out : Option α

/-- The run `r` preceded by the requests `pre`. -/
def Run.after {α : Type} (pre : List Request) (r : Run α) : Run α :=
  ⟨pre ++ r.fetches, r.out⟩

/-! ## `getLinksFromURL` -/

/-- The loop over `t.Attr` in `getLinksFromURL`: the value of the first
attribute whose key is `href` is appended to `links`, then `break`. -/
def appendHref (links : List String) : List Attribute → List String
  | [] => links
  | a :: rest => if a.Key = "href" then links ++ [a.Val] else appendHref links rest

/-- The `for` loop of `getLinksFromURL` over the tokens `z.Next()` yields:
the links are returned at the first `ErrorToken` (the end of the document),
and only a `StartTagToken` whose `Data` is `a` is looked at. -/
def scanTokens (links : List String) : List Token → List String
  | [] => links
  | t :: rest =>
    match t.Typ with
    | .ErrorToken => links
    | .StartTagToken =>
      if t.Data = "a" then scanTokens (appendHref links t.Attr) rest
      else scanTokens links rest
    | _ => scanTokens links rest

/-- The function `getLinksFromURL`: one GET request; an error only when the
request itself fails, the status of the response is not looked at. -/
def getLinksFromURL (L : Lib) (W : World) (url : String) :
    List Request × Except String (List String) :=
  match W.get url with
  | .error err => ([.get url], .error ("Failed to fetch " ++ url ++ ": " ++ err))
  | .ok resp => ([.get url], .ok (scanTokens [] (L.tokenize resp.Body.data)))

/-! ## `getTimeStampFromProwJSON` -/

/-- The function `getTimeStampFromProwJSON`.  On error the source returns
`time.Now()` next to the error; its only caller drops that value, so the
model returns the error alone.  A failed read is reported with the (nil)
error of the GET, which `%v` prints as `<nil>`. -/
def getTimeStampFromProwJSON (L : Lib) (W : World) (rawURL : String) :
    List Request × Except String Time :=
  match L.urlParse rawURL with
  | .error err => ([], .error ("Failed to fetch prow JSOM at " ++ rawURL ++ ": " ++ err))
  | .ok jsonURL =>
    match W.get jsonURL with
    | .error err => ([.get jsonURL], .error ("Failed to fetch " ++ jsonURL ++ ": " ++ err))
    | .ok resp =>
      match resp.Body.readErr with
      | some _ => ([.get jsonURL], .error ("Failed to read body at " ++ jsonURL ++ ": <nil>"))
      | none =>
        match L.jsonUnmarshal resp.Body.data with
        | .error err =>
          ([.get jsonURL],
            .error ("Failed to unmarshal json " ++ resp.Body.data ++ ": " ++ err))
        | .ok timestamp => ([.get jsonURL], .ok (.unix timestamp))

/-! ## `getTarURLFromProw` -/

/-- The loop of lines 178-183: `tmpArtifactsURL` after the loop, which is
`gcsPrefix + link` for the first link ending in `artifacts/` and stays empty
when there is none. -/
def findArtifacts : List String → String
  | [] => ""
  | link :: rest =>
    if strings.HasSuffix link "artifacts/" then gcsPrefix ++ link else findArtifacts rest

/-- The computation of `lastPathSegment` in both loops (lines 203-207 and
232-236): the last element of the split, and the one before it when the last
is empty.  `none` is the index-out-of-range panic. -/
def lastPathSegment (link : String) : Option String :=
  let linkSplitBySlash := strings.Split link '/'
  match index linkSplitBySlash ((linkSplitBySlash.length : Int) - 1) with
  | none => none
  | some lastPathSegment =>
    if lastPathSegment.length = 0 then
      index linkSplitBySlash ((linkSplitBySlash.length : Int) - 2)
    else some lastPathSegment

/-- The loop of lines 201-213: `tmpE2eURL` after the loop (empty when no link
matched); `none` when the loop panics.  The two `log.Printf` calls write to
the process log and are not modelled. -/
def findE2e : List String → Option String
  | [] => some ""
  | link :: rest =>
    match lastPathSegment link with
    | none => none
    | some lastPathSegment =>
      if strings.Contains lastPathSegment e2ePrefix then some (gcsPrefix ++ link)
      else findE2e rest

/-- The loop of lines 230-246 up to the assignment of `tmpE2eURL`:
`some (some (gcsPrefix + link))` for the first link whose segment is
`gather-extra`, `some none` when the loop ends without one, `none` when it
panics. -/
def findExtra : List String → Option (Option String)
  | [] => some none
  | link :: rest =>
    match lastPathSegment link with
    | none => none
    | some lastPathSegment =>
      if lastPathSegment = extraPath then some (some (gcsPrefix ++ link))
      else findExtra rest

/-- Lines 248-255: the metrics URL from the working e2e URL. -/
def resolveMetrics (L : Lib) (prowInfo : ProwInfo) (e2eURL : String) :
    ProwInfo × Option String :=
  let gcsMetricsURL := e2eURL ++ promTarPath
  let tempMetricsURL := strings.Replace gcsMetricsURL (gcsPrefix ++ "/gcs") storagePrefix
  match L.urlParse tempMetricsURL with
  | .error err =>
    (prowInfo, some ("Failed to parse metrics link " ++ tempMetricsURL ++ ": " ++ err))
  | .ok expectedMetricsURL => ({ prowInfo with MetricsURL := expectedMetricsURL }, none)

/-- Lines 217-256: the rest of `getTarURLFromProw` once `tmpE2eURL` has been
chosen at the artifacts level. -/
def resolveE2e (L : Lib) (W : World) (prowInfo : ProwInfo) (tmpE2eURL : String) :
    Run (ProwInfo × Option String) :=
  match L.urlParse tmpE2eURL with
  | .error err =>
    ⟨[], some (prowInfo, some ("Failed to parse e2e link " ++ tmpE2eURL ++ ": " ++ err))⟩
  | .ok e2eURL =>
    let r := getLinksFromURL L W e2eURL
    match r.2 with
    | .error err =>
      ⟨r.1, some (prowInfo,
        some ("Failed to fetch artifacts link at " ++ e2eURL ++ ": " ++ err))⟩
    | .ok e2eToplinks =>
      if e2eToplinks.length = 0 then
        ⟨r.1, some (prowInfo, some ("No top links at " ++ e2eURL ++ " found"))⟩
      else
        match findExtra e2eToplinks with
        | none => ⟨r.1, none⟩
        | some none => ⟨r.1, some (resolveMetrics L prowInfo e2eURL)⟩
        | some (some tmpE2eURL2) =>
          match L.urlParse tmpE2eURL2 with
          | .error err =>
            ⟨r.1, some (prowInfo,
              some ("Failed to parse e2e link " ++ tmpE2eURL2 ++ ": " ++ err))⟩
          | .ok e2eURL2 => ⟨r.1, some (resolveMetrics L prowInfo e2eURL2)⟩

/-- Lines 187-256: the rest of `getTarURLFromProw` once `tmpArtifactsURL` has
been chosen at the top level.  The two error messages of the artifacts
listing name `gcsURL`, as in the source. -/
def resolveArtifacts (L : Lib) (W : World) (gcsURL : String) (prowInfo : ProwInfo)
    (tmpArtifactsURL : String) : Run (ProwInfo × Option String) :=
  match L.urlParse tmpArtifactsURL with
  | .error err =>
    ⟨[], some (prowInfo,
      some ("Failed to parse artifacts link " ++ tmpArtifactsURL ++ ": " ++ err))⟩
  | .ok artifactsURL =>
    let r := getLinksFromURL L W artifactsURL
    match r.2 with
    | .error err =>
      ⟨r.1, some (prowInfo,
        some ("Failed to fetch artifacts link at " ++ gcsURL ++ ": " ++ err))⟩
    | .ok artifactLinksToplinks =>
      if artifactLinksToplinks.length = 0 then
        ⟨r.1, some (prowInfo, some ("No artifact links at " ++ gcsURL ++ " found"))⟩
      else
        match findE2e artifactLinksToplinks with
        | none => ⟨r.1, none⟩
        | some tmpE2eURL =>
          if tmpE2eURL = "" then
            ⟨r.1, some (prowInfo,
              some ("Failed to find e2e link in " ++ fmtStrings artifactLinksToplinks))⟩
          else (resolveE2e L W prowInfo tmpE2eURL).after r.1

/-- Lines 169-256: the rest of `getTarURLFromProw` once both timestamps are
in `prowInfo`. -/
def resolveTop (L : Lib) (W : World) (gcsURL : String) (prowInfo : ProwInfo) :
    Run (ProwInfo × Option String) :=
  let r := getLinksFromURL L W gcsURL
  match r.2 with
  | .error err =>
    ⟨r.1, some (prowInfo,
      some ("Failed to fetch top-level GCS link at " ++ gcsURL ++ ": " ++ err))⟩
  | .ok gcsToplinks =>
    if gcsToplinks.length = 0 then
      ⟨r.1, some (prowInfo, some ("No top-level GCS links at " ++ gcsURL ++ " found"))⟩
    else
      let tmpArtifactsURL := findArtifacts gcsToplinks
      if tmpArtifactsURL = "" then
        ⟨r.1, some (prowInfo,
          some ("Failed to find artifacts link in " ++ fmtStrings gcsToplinks))⟩
      else (resolveArtifacts L W gcsURL prowInfo tmpArtifactsURL).after r.1

/-- The function `getTarURLFromProw`. -/
def getTarURLFromProw (L : Lib) (W : World) (baseURL : String) :
    Run (ProwInfo × Option String) :=
  let prowInfo : ProwInfo := {}
  let gcsTempURL := strings.Replace baseURL prowPrefix gcsPrefix
  match L.urlParse gcsTempURL with
  | .error err =>
    ⟨[], some (prowInfo, some ("Failed to parse GCS URL " ++ gcsTempURL ++ ": " ++ err))⟩
  | .ok gcsURL =>
    let s := getTimeStampFromProwJSON L W (gcsURL ++ "/started.json")
    match s.2 with
    | .error err =>
      ⟨s.1, some (prowInfo, some ("Failed to fetch test start time: " ++ err))⟩
    | .ok startTime =>
      let prowInfo1 : ProwInfo := { prowInfo with Started := startTime }
      let f := getTimeStampFromProwJSON L W (gcsURL ++ "/finished.json")
      match f.2 with
      | .error err =>
        ⟨s.1 ++ f.1, some (prowInfo1, some ("Failed to fetch test finshed time: " ++ err))⟩
      | .ok finishedTime =>
        let prowInfo2 : ProwInfo := { prowInfo1 with Finished := finishedTime }
        (resolveTop L W gcsURL prowInfo2).after (s.1 ++ f.1)

/-! ## `getMetricsTar` -/

/-- Lines 128-143 of `getMetricsTar`: the checks on the response to the HEAD
request; `none` is the nil error. -/
def checkArchive (L : Lib) (expectedMetricsURL : String) (resp : Response) :
    Option String :=
  if resp.StatusCode ≠ 200 then
    some ("Failed to check archive at " ++ expectedMetricsURL ++ ": returned " ++ resp.Status)
  else
    let contentLength := resp.headerContentLength
    if contentLength = "" then
      some ("Failed to check archive at " ++ expectedMetricsURL
        ++ ": no content length returned")
    else
      match strconv.Atoi L.quote contentLength with
      | .error err =>
        some ("Failed to check archive at " ++ expectedMetricsURL ++ ": " ++ err)
      | .ok length =>
        if length = 0 then
          some ("Failed to check archive at " ++ expectedMetricsURL ++ ": archive is empty")
        else none

/-- The outcome of `getMetricsTar`: the requests sent, the status messages
handed to `sendWSMessage`, and the returned pair (`none`: panic). -/
structure MetricsRun where
  fetches : List Request
  statuses : List (String × String)
  out : Option (ProwInfo × Option String)

/-- Modelled from the spec: `sendWSMessage` is not in `helpers.go`; following
section 4.5 it is a fire-and-forget sink, so a call only records the kind and
the message. -/
def sendWSMessage (kind message : String) : List (String × String) :=
  [(kind, message)]

/-- The function `getMetricsTar`. -/
def getMetricsTar (L : Lib) (W : World) (url : String) : MetricsRun :=
  let r := getTarURLFromProw L W url
  match r.out with
  | none => ⟨r.fetches, [], none⟩
  | some (prowInfo, some err) => ⟨r.fetches, [], some (prowInfo, some err)⟩
  | some (prowInfo, none) =>
    let expectedMetricsURL := prowInfo.MetricsURL
    let statuses :=
      sendWSMessage "status" ("Found prometheus archive at " ++ expectedMetricsURL)
        ++ sendWSMessage "status" "Checking if prometheus archive can be fetched"
    match W.head expectedMetricsURL with
    | .error err =>
      ⟨r.fetches ++ [.head expectedMetricsURL], statuses,
        some (prowInfo, some ("Failed to fetch " ++ expectedMetricsURL ++ ": " ++ err))⟩
    | .ok resp =>
      ⟨r.fetches ++ [.head expectedMetricsURL], statuses,
        some (prowInfo, checkArchive L expectedMetricsURL resp)⟩

/-! ## Definitions that follow the words of the specification -/

/-- The tokens of a page up to the end of the document (the first
`ErrorToken`). -/
def documentTokens (tokens : List Token) : List Token :=
  tokens.takeWhile (fun t => t.Typ ≠ .ErrorToken)

/-- Is the token a start tag named `a`? -/
def isAnchor (t : Token) : Bool :=
  t.Typ = .StartTagToken ∧ t.Data = "a"

/-- The link set of a page as the specification words it: in document order,
the value of the first attribute named `href` of every start tag named `a`
that has one. -/
def anchorHrefs (tokens : List Token) : List String :=
  (documentTokens tokens).filterMap fun t =>
    if isAnchor t then (t.Attr.find? fun a => a.Key = "href").map (·.Val) else none

/-- The last non-empty path segment of an href as the specification names it:
the last of the non-empty pieces between slashes, if there is one. -/
def lastNonEmptySegment (link : String) : Option String :=
  ((strings.Split link '/').filter fun seg => seg ≠ "").getLast?

/-- The test of the loop at the artifacts level: the segment of the href, as
`lastPathSegment` computes it, contains `e2e`.  False on the empty href, where
the computation panics. -/
def hasE2eSegment (link : String) : Bool :=
  match lastPathSegment link with
  | some seg => strings.Contains seg e2ePrefix
  | none => false

/-- The test of the loop at the e2e level: the segment of the href, as
`lastPathSegment` computes it, is `gather-extra`. -/
def hasExtraSegment (link : String) : Bool :=
  match lastPathSegment link with
  | some seg => seg = extraPath
  | none => false

/-- The run ends with a returned error whose text starts with `pfx`. -/
def failsWith (r : Run (ProwInfo × Option String)) (pfx : String) : Prop :=
  ∃ info rest, r.out = some (info, some (pfx ++ rest))

/-- A GET that failed is the last request of the run, and the run returns an
error. -/
def StopsAtFailure (W : World) (r : Run (ProwInfo × Option String)) : Prop :=
  ∀ u msg, Request.get u ∈ r.fetches → W.get u = .error msg →
    r.fetches.getLast? = some (.get u) ∧ ∃ info err, r.out = some (info, some err)

/-! ## A small remote, for evaluating the functions on concrete input -/

/-- A start tag `a` with one attribute, `href`. -/
def anchor (href : String) : Token :=
  ⟨.StartTagToken, "a", [⟨"", "href", href⟩]⟩

/-- A library for the examples: URLs are re-serialised unchanged, a page body
is a list of hrefs separated by blanks, each one an anchor, and a JSON body is
the decimal timestamp alone. -/
def demoLib : Lib where
  urlParse := fun s => .ok s
  tokenize := fun body => if body = "" then [] else (strings.Split body ' ').map anchor
  jsonUnmarshal := fun body =>
    match strconv.parseInt body with
    | .ok n => .ok n
    | .error _ => .error "invalid character"
  quote := fun s => "\"" ++ s ++ "\""

/-- A response `200 OK` with the given body and no `content-length`. -/
def page (body : String) : Except String Response :=
  .ok ⟨"200 OK", 200, none, ⟨body, none⟩⟩

/-- The report URL of the examples. -/
def demoReport : String := "https://prow.svc.ci.openshift.org/view/gcs/b/j/1"

/-- A remote for the job `gcs/b/j/1`: both timestamps, a top-level listing
with body `top`, a listing with body `arts` at the `artifacts/` folder, a
listing with body `e2e` at the URL `e2eURL`, and the answer `archive` to any
HEAD request. -/
def demoWorld (top arts e2eURL e2e : String) (archive : Except String Response) : World where
  get := fun url =>
    if url = "https://gcsweb-ci.svc.ci.openshift.org/gcs/b/j/1/started.json" then page "100"
    else if url = "https://gcsweb-ci.svc.ci.openshift.org/gcs/b/j/1/finished.json" then
      page "200"
    else if url = "https://gcsweb-ci.svc.ci.openshift.org/gcs/b/j/1" then page top
    else if url = "https://gcsweb-ci.svc.ci.openshift.org/gcs/b/j/1/artifacts/" then
      page arts
    else if url = e2eURL then page e2e
    else .error "dial tcp: no such host"
  head := fun _ => archive

/-- The top-level listing of the examples. -/
def demoTop : String := "/gcs/b/j/ /gcs/b/j/1/artifacts/"

/-- The `ProwInfo` of the examples before the metrics URL is known. -/
def demoInfo : ProwInfo := ⟨.unix 100, .unix 200, ""⟩

/-- A tokenizer for the examples that yields the same tokens on every body:
text, anchors with and without `href`, an anchor with two `href`, a tag that
is not an anchor, a repeated link, a self-closing anchor and an end tag. -/
def mixedLib : Lib where
  urlParse := fun s => .ok s
  tokenize := fun _ =>
    [ ⟨.TextToken, "a", []⟩,
      ⟨.StartTagToken, "a", [⟨"", "href", "x/"⟩]⟩,
      ⟨.StartTagToken, "a", [⟨"", "name", "top"⟩]⟩,
      ⟨.StartTagToken, "a", [⟨"", "class", "c"⟩, ⟨"", "href", "y/"⟩, ⟨"", "href", "z/"⟩]⟩,
      ⟨.StartTagToken, "link", [⟨"", "href", "w.css"⟩]⟩,
      ⟨.StartTagToken, "a", [⟨"", "href", "x/"⟩]⟩,
      ⟨.SelfClosingTagToken, "a", [⟨"", "href", "q/"⟩]⟩,
      ⟨.EndTagToken, "a", []⟩ ]
  jsonUnmarshal := fun _ => .ok 0
  quote := fun s => s

/-- A remote that answers every GET with `404 Not Found` and the body
`body`, as a web server does for a missing page. -/
def notFoundWorld (body : String) : World where
  get := fun _ => .ok ⟨"404 Not Found", 404, none, ⟨body, none⟩⟩
  head := fun _ => .error "unused"

/-- The metrics URL the examples resolve to. -/
def demoMetricsURL : String :=
  "https://storage.googleapis.com/b/j/1/artifacts/e2e-aws/metrics/prometheus.tar"

/-- The remote of the examples with a complete three-level listing, and the
answer `archive` to the HEAD request. -/
def demoArchiveWorld (archive : Except String Response) : World :=
  demoWorld demoTop "/gcs/b/j/1/artifacts/build-log.txt /gcs/b/j/1/artifacts/e2e-aws/"
    "https://gcsweb-ci.svc.ci.openshift.org/gcs/b/j/1/artifacts/e2e-aws/"
    "/gcs/b/j/1/artifacts/e2e-aws/metrics/" archive

/-- An answer to the HEAD request without a body. -/
def headResponse (status : String) (code : Int) (contentLength : Option String) :
    Response :=
  ⟨status, code, contentLength, ⟨"", none⟩⟩

/-- The remote of the witness of the specification: the job
`origin-ci-test/logs/job/1` with one link at each of the three levels. -/
def originWorld : World where
  get := fun url =>
    if url = "https://gcsweb-ci.svc.ci.openshift.org/gcs/origin-ci-test/logs/job/1/started.json"
    then page "1580000000"
    else if url
      = "https://gcsweb-ci.svc.ci.openshift.org/gcs/origin-ci-test/logs/job/1/finished.json"
    then page "1580003600"
    else if url = "https://gcsweb-ci.svc.ci.openshift.org/gcs/origin-ci-test/logs/job/1"
    then page "/gcs/origin-ci-test/logs/job/1/artifacts/"
    else if url
      = "https://gcsweb-ci.svc.ci.openshift.org/gcs/origin-ci-test/logs/job/1/artifacts/"
    then page "/gcs/origin-ci-test/logs/job/1/artifacts/e2e-aws/"
    else if url
      = "https://gcsweb-ci.svc.ci.openshift.org/gcs/origin-ci-test/logs/job/1/artifacts/e2e-aws/"
    then page "/gcs/origin-ci-test/logs/job/1/artifacts/e2e-aws/metrics/"
    else .error "dial tcp: no such host"
  head := fun _ => .error "dial tcp: no such host"

/-- The remote of the examples with a complete three-level listing, in which
started.json is missing: its GET is answered `404 Not Found`, with a body that
decodes (to the timestamp 0). -/
def missingStartedWorld : World where
  get := fun url =>
    if url = "https://gcsweb-ci.svc.ci.openshift.org/gcs/b/j/1/started.json" then
      .ok ⟨"404 Not Found", 404, none, ⟨"0", none⟩⟩
    else (demoArchiveWorld (.error "unused")).get url
  head := fun _ => .error "unused"

/-! ## Auxiliary lemmas -/

theorem splitChars_ne_nil (sep : Char) (l : List Char) : strings.splitChars sep l ≠ [] := by
  cases l with
  | nil => simp [strings.splitChars]
  | cons c cs =>
    simp only [strings.splitChars]
    split
    · simp
    · split <;> simp

theorem splitChars_eq_singleton_nil (sep : Char) (l : List Char) :
    strings.splitChars sep l = [[]] ↔ l = [] := by
  cases l with
  | nil => simp [strings.splitChars]
  | cons c cs =>
    simp only [strings.splitChars]
    split
    · simp [splitChars_ne_nil]
    · split <;> simp

theorem split_ne_nil (link : String) : strings.Split link '/' ≠ [] := by
  simp [strings.Split, splitChars_ne_nil]

theorem index_length_sub_one {α : Type} (xs : List α) (h : xs ≠ []) :
    index xs ((xs.length : Int) - 1) = some (xs.getLast h) := by
  have hpos : 0 < xs.length := List.length_pos.mpr h
  have h1 : ((xs.length : Int) - 1).toNat = xs.length - 1 := by omega
  unfold index
  rw [if_pos (by omega), h1, List.getLast_eq_getElem]
  exact List.getElem?_eq_getElem _

theorem index_eq_none_iff {α : Type} (xs : List α) (i : Int) :
    index xs i = none ↔ ¬ (0 ≤ i ∧ i < (xs.length : Int)) := by
  unfold index
  by_cases h : 0 ≤ i ∧ i < (xs.length : Int)
  · rw [if_pos h]
    have hlt : i.toNat < xs.length := by omega
    simp [h, List.getElem?_eq_getElem hlt]
  · simp [h]

theorem split_eq_singleton_empty (link : String) :
    strings.Split link '/' = [""] → link = "" := by
  intro h
  unfold strings.Split at h
  have h2 : strings.splitChars '/' link.data = [[]] := by
    rcases hs : strings.splitChars '/' link.data with _ | ⟨a, _ | ⟨b, t⟩⟩
    · rw [hs] at h; simp at h
    · rw [hs] at h
      simp only [List.map_cons, List.map_nil, List.cons.injEq, and_true] at h
      have : a = [] := by
        have := congrArg String.data h
        simpa using this
      rw [this]
    · rw [hs] at h; simp at h
  exact String.ext ((splitChars_eq_singleton_nil '/' link.data).mp h2)

/-- The segment computation panics on the empty href and on no other. -/
theorem lastPathSegment_eq_none_iff (link : String) :
    lastPathSegment link = none ↔ link = "" := by
  constructor
  · intro h
    have hne := split_ne_nil link
    unfold lastPathSegment at h
    simp only [index_length_sub_one _ hne] at h
    split at h
    · rename_i hlen
      rw [index_eq_none_iff] at h
      have hpos : 0 < (strings.Split link '/').length := List.length_pos.mpr hne
      have hone : (strings.Split link '/').length = 1 := by omega
      apply split_eq_singleton_empty
      rcases hs : strings.Split link '/' with _ | ⟨a, _ | ⟨b, t⟩⟩
      · exact absurd hs hne
      · have hl : (strings.Split link '/').getLast hne = a := by
          simp [hs]
        rw [hl] at hlen
        have : a = "" := String.ext (List.length_eq_zero.mp hlen)
        rw [this]
      · rw [hs] at hone; simp at hone
    · exact absurd h (by simp)
  · rintro rfl
    decide

theorem lastPathSegment_of_ne_empty (link : String) (h : link ≠ "") :
    ∃ seg, lastPathSegment link = some seg := by
  rcases hs : lastPathSegment link with _ | seg
  · exact absurd ((lastPathSegment_eq_none_iff link).mp hs) h
  · exact ⟨seg, rfl⟩

/-! ## The link extractor -/

theorem appendHref_eq (links : List String) (attrs : List Attribute) :
    appendHref links attrs
      = links ++ ((attrs.find? fun a => a.Key = "href").map (·.Val)).toList := by
  induction attrs with
  | nil => simp [appendHref]
  | cons a rest ih =>
    by_cases h : a.Key = "href"
    · simp [appendHref, h, List.find?_cons]
    · simp [appendHref, h, List.find?_cons, ih]

theorem scanTokens_eq (links : List String) (tokens : List Token) :
    scanTokens links tokens = links ++ anchorHrefs tokens := by
  induction tokens generalizing links with
  | nil => simp [scanTokens, anchorHrefs, documentTokens]
  | cons t rest ih =>
    have hrest : ∀ l, scanTokens l rest = l ++ anchorHrefs rest := ih
    unfold anchorHrefs documentTokens at hrest ⊢
    rcases t with ⟨typ, data, attr⟩
    cases typ <;>
      simp [scanTokens, isAnchor, List.takeWhile_cons, List.filterMap_cons, hrest]
    by_cases hd : data = "a"
    · simp only [hd, if_true, appendHref_eq]
      rcases hf : (attr.find? fun a => a.Key = "href") with _ | a
      · rw [hf]; simp
      · rw [hf]; simp
    · simp [hd]

/-- C8: on a page that could be fetched, `getLinksFromURL` sends one GET and
returns, with a nil error, exactly the link set of the specification: in
document order and with duplicates, the value of the first `href` attribute
of every start tag `a` that has one.  In particular a page without any anchor
start tag gives the empty sequence and a nil error. -/
theorem getLinksFromURL_returns_anchor_hrefs (L : Lib) (W : World) (url : String)
    (resp : Response) (hget : W.get url = .ok resp) :
    getLinksFromURL L W url = ([.get url], .ok (anchorHrefs (L.tokenize resp.Body.data)))
    ∧ ((∀ t ∈ documentTokens (L.tokenize resp.Body.data), isAnchor t = false) →
        getLinksFromURL L W url = ([.get url], .ok [])) := by
  have hmain : getLinksFromURL L W url
      = ([.get url], .ok (anchorHrefs (L.tokenize resp.Body.data))) := by
    simp [getLinksFromURL, hget, scanTokens_eq]
  refine ⟨hmain, fun hnone => ?_⟩
  rw [hmain]
  have : anchorHrefs (L.tokenize resp.Body.data) = [] := by
    unfold anchorHrefs
    rw [List.filterMap_eq_nil_iff]
    intro t ht
    simp [hnone t ht]
  rw [this]

/-- Witness of C8: a page with eight tokens, of which three anchors carry an
`href`; the links come out in document order, the repeated one twice. -/
theorem getLinksFromURL_returns_anchor_hrefs_witness :
    (notFoundWorld "").get "u" = .ok ⟨"404 Not Found", 404, none, ⟨"", none⟩⟩
    ∧ getLinksFromURL mixedLib (notFoundWorld "") "u"
        = ([.get "u"], .ok ["x/", "y/", "x/"]) :=
  ⟨rfl, (getLinksFromURL_returns_anchor_hrefs mixedLib (notFoundWorld "") "u" _ rfl).1⟩

/-- C9, the code at the failing input: the answer to the GET is `404 Not
Found` with a body that holds one anchor, and `getLinksFromURL` returns the
link of that body with a nil error instead of a fetch error. -/
theorem getLinksFromURL_ignores_status :
    getLinksFromURL demoLib (notFoundWorld "/gcs/b/j/1/artifacts/")
        "https://gcsweb-ci.svc.ci.openshift.org/gcs/b/j/1"
      = ([.get "https://gcsweb-ci.svc.ci.openshift.org/gcs/b/j/1"],
          .ok ["/gcs/b/j/1/artifacts/"]) := by
  rfl

/-- C10, the code at the failing input: an anchor with an empty `href` in the
artifacts listing, or in the e2e listing, makes the segment computation index
the split at `-1`, and `getTarURLFromProw` panics instead of returning. -/
theorem getTarURLFromProw_panics_on_empty_href :
    lastPathSegment "" = none
    ∧ (getTarURLFromProw demoLib
        (demoWorld demoTop " /gcs/b/j/1/artifacts/e2e-aws/" "" "" (.error "unused"))
        demoReport).out = none
    ∧ (getTarURLFromProw demoLib
        (demoWorld demoTop "/gcs/b/j/1/artifacts/e2e-aws/"
          "https://gcsweb-ci.svc.ci.openshift.org/gcs/b/j/1/artifacts/e2e-aws/"
          " /gcs/b/j/1/artifacts/e2e-aws/gather-extra/" (.error "unused"))
        demoReport).out = none := by
  refine ⟨by decide, by decide, by decide⟩

/-! ## The archive validation -/

theorem containsChars_of_prefix (sub l : List Char) (h : sub <+: l) :
    strings.containsChars sub l = true := by
  cases l with
  | nil =>
    have : sub = [] := List.prefix_nil.mp h
    simp [strings.containsChars, this]
  | cons c cs =>
    have hp : sub.isPrefixOf (c :: cs) = true := List.isPrefixOf_iff_prefix.mpr h
    simp [strings.containsChars, hp]

theorem containsChars_append (sub a b : List Char) :
    strings.containsChars sub (a ++ (sub ++ b)) = true := by
  induction a with
  | nil => exact containsChars_of_prefix _ _ (List.prefix_append _ _)
  | cons c cs ih =>
    show strings.containsChars sub (c :: (cs ++ (sub ++ b))) = true
    simp [strings.containsChars, ih]

theorem contains_append (a u b : String) : strings.Contains (a ++ u ++ b) u = true := by
  unfold strings.Contains
  rw [String.data_append, String.data_append, List.append_assoc]
  exact containsChars_append _ _ _

/-- Two texts that end in different characters are different. -/
theorem append_ne_of_getLast (a b x y : String) (cx cy : Char)
    (hx : x.data.getLast? = some cx) (hy : y.data.getLast? = some cy) (h : cx ≠ cy) :
    a ++ x ≠ b ++ y := by
  intro heq
  have hd := congrArg (fun s => s.data.getLast?) heq
  simp only [String.data_append, List.getLast?_append, hx, hy, Option.or] at hd
  exact h (Option.some.inj hd)

/-- C7 as stated fails: `206 Partial Content` and `204 No Content` are
success statuses.  For the first, with `content-length: 10`, the table of the
claim ends in a successful validation; for the second, without a
content-length, it ends in "no content length returned".  The code tests
`resp.StatusCode != 200` and returns the error that reports the status in
both cases. -/
theorem getMetricsTar_rejects_success_status_other_than_200 :
    (200 ≤ (headResponse "206 Partial Content" 206 (some "10")).StatusCode
      ∧ (headResponse "206 Partial Content" 206 (some "10")).StatusCode < 300)
    ∧ strconv.parseInt "10" = .ok 10
    ∧ (getMetricsTar demoLib
        (demoArchiveWorld (.ok (headResponse "206 Partial Content" 206 (some "10"))))
        demoReport).out
      = some (⟨.unix 100, .unix 200, demoMetricsURL⟩,
          some ("Failed to check archive at " ++ demoMetricsURL
            ++ ": returned 206 Partial Content"))
    ∧ (getMetricsTar demoLib
        (demoArchiveWorld (.ok (headResponse "204 No Content" 204 none)))
        demoReport).out
      = some (⟨.unix 100, .unix 200, demoMetricsURL⟩,
          some ("Failed to check archive at " ++ demoMetricsURL
            ++ ": returned 204 No Content")) := by
  refine ⟨⟨by decide, by decide⟩, rfl, by decide, by decide⟩

/-- C7 amended: once the archive URL is resolved and the HEAD request is
answered, `getMetricsTar` decides in this order: a status code other than 200
gives the error reporting the status; else an absent or empty content-length
gives the error "no content length returned"; else a content-length that
`Atoi` rejects gives the error with the parse failure; else a length of zero
gives the error "archive is empty"; else the error is nil.  Every error
contains the archive URL, and the texts of "no content length" and "archive
is empty" differ for every pair of URLs. -/
theorem getMetricsTar_validation (L : Lib) (W : World) (url : String)
    (prowInfo : ProwInfo) (resp : Response)
    (hres : (getTarURLFromProw L W url).out = some (prowInfo, none))
    (hhead : W.head prowInfo.MetricsURL = .ok resp) :
    (resp.StatusCode ≠ 200 →
      (getMetricsTar L W url).out = some (prowInfo,
        some ("Failed to check archive at " ++ prowInfo.MetricsURL
          ++ ": returned " ++ resp.Status)))
    ∧ (resp.StatusCode = 200 → resp.ContentLength.getD "" = "" →
      (getMetricsTar L W url).out = some (prowInfo,
        some ("Failed to check archive at " ++ prowInfo.MetricsURL
          ++ ": no content length returned")))
    ∧ (∀ e, resp.StatusCode = 200 → resp.ContentLength.getD "" ≠ "" →
      strconv.parseInt (resp.ContentLength.getD "") = .error e →
      (getMetricsTar L W url).out = some (prowInfo,
        some ("Failed to check archive at " ++ prowInfo.MetricsURL ++ ": "
          ++ ("strconv.Atoi: parsing " ++ L.quote (resp.ContentLength.getD "") ++ ": "
            ++ e.Error))))
    ∧ (resp.StatusCode = 200 → resp.ContentLength.getD "" ≠ "" →
      strconv.parseInt (resp.ContentLength.getD "") = .ok 0 →
      (getMetricsTar L W url).out = some (prowInfo,
        some ("Failed to check archive at " ++ prowInfo.MetricsURL
          ++ ": archive is empty")))
    ∧ (∀ n, resp.StatusCode = 200 → resp.ContentLength.getD "" ≠ "" →
      strconv.parseInt (resp.ContentLength.getD "") = .ok n → n ≠ 0 →
      (getMetricsTar L W url).out = some (prowInfo, none))
    ∧ (∀ err, (getMetricsTar L W url).out = some (prowInfo, some err) →
      strings.Contains err prowInfo.MetricsURL = true)
    ∧ (∀ u1 u2 : String,
      "Failed to check archive at " ++ u1 ++ ": no content length returned"
        ≠ "Failed to check archive at " ++ u2 ++ ": archive is empty") := by
  have hout : (getMetricsTar L W url).out
      = some (prowInfo, checkArchive L prowInfo.MetricsURL resp) := by
    unfold getMetricsTar
    simp only [hres, hhead]
  rw [hout]
  refine ⟨?_, ?_, ?_, ?_, ?_, ?_, ?_⟩
  · intro hs
    simp [checkArchive, hs]
  · intro hs hc
    simp [checkArchive, hs, Response.headerContentLength, hc]
  · intro e hs hc hp
    simp [checkArchive, hs, Response.headerContentLength, hc, strconv.Atoi, hp]
  · intro hs hc hp
    simp [checkArchive, hs, Response.headerContentLength, hc, strconv.Atoi, hp]
  · intro n hs hc hp hn
    simp [checkArchive, hs, Response.headerContentLength, hc, strconv.Atoi, hp, hn]
  · intro err herr
    have hca : checkArchive L prowInfo.MetricsURL resp = some err := by
      simpa using herr
    unfold checkArchive at hca
    split at hca
    · cases hca
      rw [String.append_assoc]
      exact contains_append _ _ _
    · simp only at hca
      split at hca
      · cases hca; exact contains_append _ _ _
      · split at hca
        · cases hca
          rw [String.append_assoc]
          exact contains_append _ _ _
        · split at hca
          · cases hca; exact contains_append _ _ _
          · cases hca
  · intro u1 u2
    exact append_ne_of_getLast _ _ _ _ 'd' 'y' rfl rfl (by decide)

/-- Witness of C7 amended: the archive answers `200 OK` with `content-length: 0`, and
the result is the error "archive is empty". -/
theorem getMetricsTar_validation_witness :
    (getTarURLFromProw demoLib
        (demoArchiveWorld (.ok (headResponse "200 OK" 200 (some "0")))) demoReport).out
      = some (⟨.unix 100, .unix 200, demoMetricsURL⟩, none)
    ∧ (getMetricsTar demoLib
        (demoArchiveWorld (.ok (headResponse "200 OK" 200 (some "0")))) demoReport).out
      = some (⟨.unix 100, .unix 200, demoMetricsURL⟩,
          some ("Failed to check archive at " ++ demoMetricsURL ++ ": archive is empty")) :=
  ⟨by decide,
    (getMetricsTar_validation demoLib
      (demoArchiveWorld (.ok (headResponse "200 OK" 200 (some "0")))) demoReport
      ⟨.unix 100, .unix 200, demoMetricsURL⟩ (headResponse "200 OK" 200 (some "0"))
      (by decide) rfl).2.2.2.1 (by decide) (by decide) rfl⟩

/-! ## What is returned next to an error -/

theorem resolveMetrics_error (L : Lib) (prowInfo info : ProwInfo) (e2eURL err : String)
    (h : resolveMetrics L prowInfo e2eURL = (info, some err)) : info = prowInfo := by
  unfold resolveMetrics at h
  simp only at h
  split at h
  · exact (congrArg Prod.fst h).symm
  · exact absurd (congrArg Prod.snd h) (by simp)

theorem resolveE2e_error (L : Lib) (W : World) (prowInfo info : ProwInfo)
    (tmpE2eURL err : String)
    (h : (resolveE2e L W prowInfo tmpE2eURL).out = some (info, some err)) :
    info = prowInfo := by
  unfold resolveE2e at h
  split at h
  · simp only [Option.some.injEq, Prod.mk.injEq] at h
    exact h.1.symm
  · simp only at h
    split at h
    · simp only [Option.some.injEq, Prod.mk.injEq] at h
      exact h.1.symm
    · split at h
      · simp only [Option.some.injEq, Prod.mk.injEq] at h
        exact h.1.symm
      · split at h
        · cases h
        · exact resolveMetrics_error _ _ _ _ _ (Option.some.inj h)
        · split at h
          · simp only [Option.some.injEq, Prod.mk.injEq] at h
            exact h.1.symm
          · exact resolveMetrics_error _ _ _ _ _ (Option.some.inj h)

theorem resolveArtifacts_error (L : Lib) (W : World) (gcsURL : String)
    (prowInfo info : ProwInfo) (tmpArtifactsURL err : String)
    (h : (resolveArtifacts L W gcsURL prowInfo tmpArtifactsURL).out = some (info, some err)) :
    info = prowInfo := by
  unfold resolveArtifacts at h
  split at h
  · simp only [Option.some.injEq, Prod.mk.injEq] at h
    exact h.1.symm
  · simp only at h
    split at h
    · simp only [Option.some.injEq, Prod.mk.injEq] at h
      exact h.1.symm
    · split at h
      · simp only [Option.some.injEq, Prod.mk.injEq] at h
        exact h.1.symm
      · split at h
        · cases h
        · split at h
          · simp only [Option.some.injEq, Prod.mk.injEq] at h
            exact h.1.symm
          · exact resolveE2e_error _ _ _ _ _ _ h

theorem resolveTop_error (L : Lib) (W : World) (gcsURL : String)
    (prowInfo info : ProwInfo) (err : String)
    (h : (resolveTop L W gcsURL prowInfo).out = some (info, some err)) :
    info = prowInfo := by
  unfold resolveTop at h
  simp only at h
  split at h
  · simp only [Option.some.injEq, Prod.mk.injEq] at h
    exact h.1.symm
  · split at h
    · simp only [Option.some.injEq, Prod.mk.injEq] at h
      exact h.1.symm
    · split at h
      · simp only [Option.some.injEq, Prod.mk.injEq] at h
        exact h.1.symm
      · exact resolveArtifacts_error _ _ _ _ _ _ _ h

theorem getTarURLFromProw_error (L : Lib) (W : World) (baseURL : String)
    (info : ProwInfo) (err : String)
    (h : (getTarURLFromProw L W baseURL).out = some (info, some err)) :
    info.MetricsURL = "" := by
  unfold getTarURLFromProw at h
  simp only at h
  split at h
  · simp only [Option.some.injEq, Prod.mk.injEq] at h
    rw [← h.1]
  · split at h
    · simp only [Option.some.injEq, Prod.mk.injEq] at h
      rw [← h.1]
    · split at h
      · simp only [Option.some.injEq, Prod.mk.injEq] at h
        rw [← h.1]
      · rw [resolveTop_error _ _ _ _ _ _ h]

/-- C6 as stated fails: resolution succeeds, the HEAD request is answered
`404 Not Found`, and `getMetricsTar` returns a non-nil error together with a
`ProwInfo` whose `MetricsURL` is the resolved archive URL. -/
theorem getMetricsTar_error_with_metricsURL :
    (getMetricsTar demoLib
        (demoArchiveWorld (.ok (headResponse "404 Not Found" 404 none))) demoReport).out
      = some (⟨.unix 100, .unix 200, demoMetricsURL⟩,
          some ("Failed to check archive at " ++ demoMetricsURL
            ++ ": returned 404 Not Found"))
    ∧ demoMetricsURL ≠ "" := by
  refine ⟨by decide, by decide⟩

/-- C6 amended: an error of `getTarURLFromProw` comes with an empty
`MetricsURL`, and `getMetricsTar` passes that pair on unchanged; any other
error of `getMetricsTar` comes from the archive validation, after a HEAD
request to the resolved URL, and is returned with the `ProwInfo` of the
successful resolution, `MetricsURL` included.  With a nil error the
`ProwInfo` is always that of the successful resolution. -/
theorem getMetricsTar_error_metricsURL (L : Lib) (W : World) (url : String)
    (info : ProwInfo) (err : Option String)
    (h : (getMetricsTar L W url).out = some (info, err)) :
    ((getTarURLFromProw L W url).out = some (info, err) ∧ err ≠ none
        ∧ info.MetricsURL = ""
        ∧ (getMetricsTar L W url).fetches = (getTarURLFromProw L W url).fetches)
    ∨ ((getTarURLFromProw L W url).out = some (info, none)
        ∧ (getMetricsTar L W url).fetches
            = (getTarURLFromProw L W url).fetches ++ [.head info.MetricsURL]) := by
  unfold getMetricsTar at h ⊢
  simp only at h ⊢
  split at h
  · cases h
  · rename_i p e hr
    simp only [Option.some.injEq, Prod.mk.injEq] at h
    obtain ⟨rfl, rfl⟩ := h
    left
    simp only [hr]
    exact ⟨trivial, by simp, getTarURLFromProw_error _ _ _ _ _ hr, trivial⟩
  · rename_i p hr
    right
    simp only [hr]
    split at h
    · simp only [Option.some.injEq, Prod.mk.injEq] at h
      obtain ⟨rfl, -⟩ := h
      rename_i hh
      simp [hh]
    · simp only [Option.some.injEq, Prod.mk.injEq] at h
      obtain ⟨rfl, -⟩ := h
      rename_i hh
      simp [hh]

/-- Witness of C6 amended: the started.json of the job cannot be fetched, and
the error is returned with an empty `MetricsURL`. -/
theorem getMetricsTar_error_metricsURL_witness :
    (getMetricsTar demoLib ⟨fun _ => .error "timeout", fun _ => .error "timeout"⟩
        demoReport).out
      = some ({}, some ("Failed to fetch test start time: Failed to fetch "
          ++ "https://gcsweb-ci.svc.ci.openshift.org/gcs/b/j/1/started.json: timeout"))
    ∧ (({} : ProwInfo).MetricsURL = ""
      ∨ (getTarURLFromProw demoLib ⟨fun _ => .error "timeout", fun _ => .error "timeout"⟩
          demoReport).out = some ({}, none)) :=
  ⟨by decide,
    (getMetricsTar_error_metricsURL demoLib
      ⟨fun _ => .error "timeout", fun _ => .error "timeout"⟩ demoReport {}
      (some ("Failed to fetch test start time: Failed to fetch "
          ++ "https://gcsweb-ci.svc.ci.openshift.org/gcs/b/j/1/started.json: timeout"))
      (by decide)).elim (fun h => Or.inl h.2.2.1) (fun h => Or.inr h.1)⟩

/-! ## Texts of errors -/

/-- Two texts that differ within their first `k` characters are different. -/
theorem append_ne_append_of_take (k : Nat) (a b x y : String)
    (h : a.data.take k ≠ b.data.take k) (ha : k ≤ a.data.length) (hb : k ≤ b.data.length) :
    a ++ x ≠ b ++ y := by
  intro heq
  have hd := congrArg (fun s => s.data.take k) heq
  simp only [String.data_append, List.take_append_of_le_length ha,
    List.take_append_of_le_length hb] at hd
  exact h hd

theorem gcsPrefix_append_ne_empty (link : String) : gcsPrefix ++ link ≠ "" := by
  intro h
  have hd := congrArg (fun s => s.data.length) h
  simp [String.data_append, gcsPrefix] at hd

/-! ## The three loops -/

/-- A list with an element that satisfies `p` splits at the first such one. -/
theorem exists_first_split {α : Type} (p : α → Bool) (l : List α)
    (h : ∃ x ∈ l, p x = true) :
    ∃ pre x post, l = pre ++ x :: post ∧ (∀ y ∈ pre, p y = false) ∧ p x = true := by
  induction l with
  | nil => obtain ⟨x, hx, -⟩ := h; cases hx
  | cons a rest ih =>
    by_cases ha : p a = true
    · exact ⟨[], a, rest, rfl, by simp, ha⟩
    · simp only [Bool.not_eq_true] at ha
      have hrest : ∃ x ∈ rest, p x = true := by
        obtain ⟨x, hx, hpx⟩ := h
        rcases List.mem_cons.mp hx with rfl | hmem
        · rw [ha] at hpx; cases hpx
        · exact ⟨x, hmem, hpx⟩
      obtain ⟨pre, x, post, hsplit, hpre, hx⟩ := ih hrest
      refine ⟨a :: pre, x, post, by rw [hsplit]; rfl, ?_, hx⟩
      intro y hy
      rcases List.mem_cons.mp hy with rfl | hmem
      · exact ha
      · exact hpre y hmem

theorem findArtifacts_found (pre post : List String) (link : String)
    (hpre : ∀ p ∈ pre, strings.HasSuffix p "artifacts/" = false)
    (hlink : strings.HasSuffix link "artifacts/" = true) :
    findArtifacts (pre ++ link :: post) = gcsPrefix ++ link := by
  induction pre with
  | nil => simp [findArtifacts, hlink]
  | cons p rest ih =>
    have hp := hpre p (List.mem_cons_self _ _)
    have hrest : ∀ q ∈ rest, strings.HasSuffix q "artifacts/" = false :=
      fun q hq => hpre q (List.mem_cons_of_mem _ hq)
    simp [findArtifacts, hp, ih hrest]

theorem findArtifacts_eq_empty_iff (links : List String) :
    findArtifacts links = "" ↔ ∀ p ∈ links, strings.HasSuffix p "artifacts/" = false := by
  induction links with
  | nil => simp [findArtifacts]
  | cons p rest ih =>
    by_cases hp : strings.HasSuffix p "artifacts/" = true
    · simp [findArtifacts, hp, gcsPrefix_append_ne_empty]
    · simp only [Bool.not_eq_true] at hp
      simp [findArtifacts, hp, ih]

theorem findE2e_found (pre post : List String) (link : String)
    (hpre : ∀ p ∈ pre, p ≠ "" ∧ hasE2eSegment p = false)
    (hlink : hasE2eSegment link = true) :
    findE2e (pre ++ link :: post) = some (gcsPrefix ++ link) := by
  induction pre with
  | nil =>
    unfold hasE2eSegment at hlink
    split at hlink
    · rename_i seg hseg
      simp [findE2e, hseg, hlink]
    · cases hlink
  | cons p rest ih =>
    obtain ⟨hp, hps⟩ := hpre p (List.mem_cons_self _ _)
    have hrest : ∀ q ∈ rest, q ≠ "" ∧ hasE2eSegment q = false :=
      fun q hq => hpre q (List.mem_cons_of_mem _ hq)
    obtain ⟨seg, hseg⟩ := lastPathSegment_of_ne_empty p hp
    simp only [hasE2eSegment, hseg] at hps
    simp [findE2e, hseg, hps, ih hrest]

theorem findE2e_none (links : List String)
    (hall : ∀ p ∈ links, p ≠ "" ∧ hasE2eSegment p = false) :
    findE2e links = some "" := by
  induction links with
  | nil => rfl
  | cons p rest ih =>
    obtain ⟨hp, hps⟩ := hall p (List.mem_cons_self _ _)
    have hrest : ∀ q ∈ rest, q ≠ "" ∧ hasE2eSegment q = false :=
      fun q hq => hall q (List.mem_cons_of_mem _ hq)
    obtain ⟨seg, hseg⟩ := lastPathSegment_of_ne_empty p hp
    simp only [hasE2eSegment, hseg] at hps
    simp [findE2e, hseg, hps, ih hrest]

theorem findExtra_found (pre post : List String) (link : String)
    (hpre : ∀ p ∈ pre, p ≠ "" ∧ hasExtraSegment p = false)
    (hlink : hasExtraSegment link = true) :
    findExtra (pre ++ link :: post) = some (some (gcsPrefix ++ link)) := by
  induction pre with
  | nil =>
    unfold hasExtraSegment at hlink
    split at hlink
    · rename_i seg hseg
      have : seg = extraPath := by simpa using hlink
      simp [findExtra, hseg, this]
    · cases hlink
  | cons p rest ih =>
    obtain ⟨hp, hps⟩ := hpre p (List.mem_cons_self _ _)
    have hrest : ∀ q ∈ rest, q ≠ "" ∧ hasExtraSegment q = false :=
      fun q hq => hpre q (List.mem_cons_of_mem _ hq)
    obtain ⟨seg, hseg⟩ := lastPathSegment_of_ne_empty p hp
    simp only [hasExtraSegment, hseg, decide_eq_false_iff_not] at hps
    simp [findExtra, hseg, hps, ih hrest]

theorem findExtra_none (links : List String)
    (hall : ∀ p ∈ links, p ≠ "" ∧ hasExtraSegment p = false) :
    findExtra links = some none := by
  induction links with
  | nil => rfl
  | cons p rest ih =>
    obtain ⟨hp, hps⟩ := hall p (List.mem_cons_self _ _)
    have hrest : ∀ q ∈ rest, q ≠ "" ∧ hasExtraSegment q = false :=
      fun q hq => hall q (List.mem_cons_of_mem _ hq)
    obtain ⟨seg, hseg⟩ := lastPathSegment_of_ne_empty p hp
    simp only [hasExtraSegment, hseg, decide_eq_false_iff_not] at hps
    simp [findExtra, hseg, hps, ih hrest]

/-! ## The errors each part of the resolution can return -/

theorem getLinksFromURL_fst (L : Lib) (W : World) (url : String) :
    (getLinksFromURL L W url).1 = [.get url] := by
  unfold getLinksFromURL
  split <;> rfl

theorem resolveMetrics_errors (L : Lib) (prowInfo info : ProwInfo) (e2eURL err : String)
    (h : resolveMetrics L prowInfo e2eURL = (info, some err)) :
    ∃ rest, err = "Failed to parse metrics link " ++ rest := by
  unfold resolveMetrics at h
  simp only at h
  split at h
  · simp only [Prod.mk.injEq, Option.some.injEq] at h
    exact ⟨_, by rw [← h.2, String.append_assoc, String.append_assoc]⟩
  · exact absurd (congrArg Prod.snd h) (by simp)

theorem resolveE2e_errors (L : Lib) (W : World) (prowInfo info : ProwInfo)
    (tmpE2eURL err : String)
    (h : (resolveE2e L W prowInfo tmpE2eURL).out = some (info, some err)) :
    ∃ rest, err = "Failed to parse e2e link " ++ rest
      ∨ err = "Failed to fetch artifacts link at " ++ rest
      ∨ err = "No top links at " ++ rest
      ∨ err = "Failed to parse metrics link " ++ rest := by
  unfold resolveE2e at h
  split at h
  · simp only [Option.some.injEq, Prod.mk.injEq] at h
    exact ⟨_, Or.inl (by rw [← h.2, String.append_assoc, String.append_assoc])⟩
  · simp only at h
    split at h
    · simp only [Option.some.injEq, Prod.mk.injEq] at h
      exact ⟨_, Or.inr (Or.inl (by rw [← h.2, String.append_assoc, String.append_assoc]))⟩
    · split at h
      · simp only [Option.some.injEq, Prod.mk.injEq] at h
        exact ⟨_, Or.inr (Or.inr (Or.inl (by rw [← h.2, String.append_assoc])))⟩
      · split at h
        · cases h
        · obtain ⟨rest, hr⟩ := resolveMetrics_errors _ _ _ _ _ (Option.some.inj h)
          exact ⟨rest, Or.inr (Or.inr (Or.inr hr))⟩
        · split at h
          · simp only [Option.some.injEq, Prod.mk.injEq] at h
            exact ⟨_, Or.inl (by rw [← h.2, String.append_assoc, String.append_assoc])⟩
          · obtain ⟨rest, hr⟩ := resolveMetrics_errors _ _ _ _ _ (Option.some.inj h)
            exact ⟨rest, Or.inr (Or.inr (Or.inr hr))⟩

theorem resolveE2e_not_find_e2e (L : Lib) (W : World) (prowInfo : ProwInfo)
    (tmpE2eURL : String) :
    ¬ failsWith (resolveE2e L W prowInfo tmpE2eURL) "Failed to find e2e link in " := by
  rintro ⟨info, rest, h⟩
  obtain ⟨r, hr | hr | hr | hr⟩ := resolveE2e_errors _ _ _ _ _ _ h
  · exact append_ne_append_of_take 16 _ _ _ _ (by decide) (by decide) (by decide) hr
  · exact append_ne_append_of_take 16 _ _ _ _ (by decide) (by decide) (by decide) hr
  · exact append_ne_append_of_take 16 _ _ _ _ (by decide) (by decide) (by decide) hr
  · exact append_ne_append_of_take 16 _ _ _ _ (by decide) (by decide) (by decide) hr

theorem resolveArtifacts_not_find_artifacts (L : Lib) (W : World) (gcsURL : String)
    (prowInfo : ProwInfo) (tmpArtifactsURL : String) :
    ¬ failsWith (resolveArtifacts L W gcsURL prowInfo tmpArtifactsURL)
        "Failed to find artifacts link in " := by
  rintro ⟨info, rest, h⟩
  unfold resolveArtifacts at h
  split at h
  · simp only [Option.some.injEq, Prod.mk.injEq, String.append_assoc] at h
    exact append_ne_append_of_take 16 _ _ _ _ (by decide) (by decide) (by decide) h.2
  · simp only at h
    split at h
    · simp only [Option.some.injEq, Prod.mk.injEq, String.append_assoc] at h
      exact append_ne_append_of_take 16 _ _ _ _ (by decide) (by decide) (by decide) h.2
    · split at h
      · simp only [Option.some.injEq, Prod.mk.injEq, String.append_assoc] at h
        exact append_ne_append_of_take 16 _ _ _ _ (by decide) (by decide) (by decide) h.2
      · split at h
        · cases h
        · split at h
          · simp only [Option.some.injEq, Prod.mk.injEq] at h
            exact append_ne_append_of_take 16 _ _ _ _ (by decide) (by decide) (by decide) h.2
          · obtain ⟨r, hr | hr | hr | hr⟩ := resolveE2e_errors _ _ _ _ _ _ h
            · exact append_ne_append_of_take 16 _ _ _ _ (by decide) (by decide) (by decide)
                hr.symm
            · exact append_ne_append_of_take 16 _ _ _ _ (by decide) (by decide) (by decide)
                hr.symm
            · exact append_ne_append_of_take 16 _ _ _ _ (by decide) (by decide) (by decide)
                hr.symm
            · exact append_ne_append_of_take 16 _ _ _ _ (by decide) (by decide) (by decide)
                hr.symm

/-! ## Reaching each level of the listing -/

theorem getTarURLFromProw_reach_top (L : Lib) (W : World)
    (baseURL gcsURL startedURL finishedURL : String) (startTime finishedTime : Time)
    (hparse : L.urlParse (strings.Replace baseURL prowPrefix gcsPrefix) = .ok gcsURL)
    (hstart : getTimeStampFromProwJSON L W (gcsURL ++ "/started.json")
      = ([.get startedURL], .ok startTime))
    (hfinished : getTimeStampFromProwJSON L W (gcsURL ++ "/finished.json")
      = ([.get finishedURL], .ok finishedTime)) :
    getTarURLFromProw L W baseURL
      = (resolveTop L W gcsURL ⟨startTime, finishedTime, ""⟩).after
          [.get startedURL, .get finishedURL] := by
  unfold getTarURLFromProw
  simp only [hparse, hstart, hfinished]
  rfl

theorem resolveTop_reach_artifacts (L : Lib) (W : World) (gcsURL : String)
    (prowInfo : ProwInfo) (pre post : List String) (link : String)
    (htop : getLinksFromURL L W gcsURL = ([.get gcsURL], .ok (pre ++ link :: post)))
    (hpre : ∀ p ∈ pre, strings.HasSuffix p "artifacts/" = false)
    (hlink : strings.HasSuffix link "artifacts/" = true) :
    resolveTop L W gcsURL prowInfo
      = (resolveArtifacts L W gcsURL prowInfo (gcsPrefix ++ link)).after [.get gcsURL] := by
  unfold resolveTop
  simp only [htop, findArtifacts_found pre post link hpre hlink]
  rw [if_neg (by simp), if_neg (gcsPrefix_append_ne_empty link)]

theorem Run.after_after {α : Type} (p q : List Request) (r : Run α) :
    (r.after q).after p = r.after (p ++ q) := by
  simp [Run.after]

theorem getTarURLFromProw_reach_artifacts (L : Lib) (W : World)
    (baseURL gcsURL startedURL finishedURL : String) (startTime finishedTime : Time)
    (pre post : List String) (link : String)
    (hparse : L.urlParse (strings.Replace baseURL prowPrefix gcsPrefix) = .ok gcsURL)
    (hstart : getTimeStampFromProwJSON L W (gcsURL ++ "/started.json")
      = ([.get startedURL], .ok startTime))
    (hfinished : getTimeStampFromProwJSON L W (gcsURL ++ "/finished.json")
      = ([.get finishedURL], .ok finishedTime))
    (htop : getLinksFromURL L W gcsURL = ([.get gcsURL], .ok (pre ++ link :: post)))
    (hpre : ∀ p ∈ pre, strings.HasSuffix p "artifacts/" = false)
    (hlink : strings.HasSuffix link "artifacts/" = true) :
    getTarURLFromProw L W baseURL
      = (resolveArtifacts L W gcsURL ⟨startTime, finishedTime, ""⟩
          (gcsPrefix ++ link)).after
          [.get startedURL, .get finishedURL, .get gcsURL] := by
  rw [getTarURLFromProw_reach_top L W baseURL gcsURL startedURL finishedURL
      startTime finishedTime hparse hstart hfinished,
    resolveTop_reach_artifacts L W gcsURL _ pre post link htop hpre hlink,
    Run.after_after]
  rfl

theorem resolveArtifacts_reach_e2e (L : Lib) (W : World) (gcsURL : String)
    (prowInfo : ProwInfo) (tmpArtifactsURL artifactsURL : String)
    (pre post : List String) (link : String)
    (hparse : L.urlParse tmpArtifactsURL = .ok artifactsURL)
    (harts : getLinksFromURL L W artifactsURL
      = ([.get artifactsURL], .ok (pre ++ link :: post)))
    (hpre : ∀ p ∈ pre, p ≠ "" ∧ hasE2eSegment p = false)
    (hlink : hasE2eSegment link = true) :
    resolveArtifacts L W gcsURL prowInfo tmpArtifactsURL
      = (resolveE2e L W prowInfo (gcsPrefix ++ link)).after [.get artifactsURL] := by
  unfold resolveArtifacts
  simp only [hparse, harts, findE2e_found pre post link hpre hlink]
  rw [if_neg (by simp), if_neg (gcsPrefix_append_ne_empty link)]

theorem resolveArtifacts_no_e2e (L : Lib) (W : World) (gcsURL : String)
    (prowInfo : ProwInfo) (tmpArtifactsURL artifactsURL : String)
    (artifactLinks : List String)
    (hparse : L.urlParse tmpArtifactsURL = .ok artifactsURL)
    (harts : getLinksFromURL L W artifactsURL = ([.get artifactsURL], .ok artifactLinks))
    (hne : artifactLinks ≠ [])
    (hall : ∀ p ∈ artifactLinks, p ≠ "" ∧ hasE2eSegment p = false) :
    resolveArtifacts L W gcsURL prowInfo tmpArtifactsURL
      = ⟨[.get artifactsURL],
          some (prowInfo, some ("Failed to find e2e link in " ++ fmtStrings artifactLinks))⟩ := by
  unfold resolveArtifacts
  simp only [hparse, harts, findE2e_none artifactLinks hall]
  rw [if_neg (by simpa using hne)]
  rfl

theorem resolveE2e_found_extra (L : Lib) (W : World) (prowInfo : ProwInfo)
    (tmpE2eURL e2eURL e2eURL2 : String) (pre post : List String) (link : String)
    (hparse : L.urlParse tmpE2eURL = .ok e2eURL)
    (he2e : getLinksFromURL L W e2eURL = ([.get e2eURL], .ok (pre ++ link :: post)))
    (hpre : ∀ p ∈ pre, p ≠ "" ∧ hasExtraSegment p = false)
    (hlink : hasExtraSegment link = true)
    (hparse2 : L.urlParse (gcsPrefix ++ link) = .ok e2eURL2) :
    resolveE2e L W prowInfo tmpE2eURL
      = ⟨[.get e2eURL], some (resolveMetrics L prowInfo e2eURL2)⟩ := by
  unfold resolveE2e
  simp only [hparse, he2e, findExtra_found pre post link hpre hlink, hparse2]
  rw [if_neg (by simp)]

theorem resolveE2e_no_extra (L : Lib) (W : World) (prowInfo : ProwInfo)
    (tmpE2eURL e2eURL : String) (e2eToplinks : List String)
    (hparse : L.urlParse tmpE2eURL = .ok e2eURL)
    (he2e : getLinksFromURL L W e2eURL = ([.get e2eURL], .ok e2eToplinks))
    (hne : e2eToplinks ≠ [])
    (hall : ∀ p ∈ e2eToplinks, p ≠ "" ∧ hasExtraSegment p = false) :
    resolveE2e L W prowInfo tmpE2eURL
      = ⟨[.get e2eURL], some (resolveMetrics L prowInfo e2eURL)⟩ := by
  unfold resolveE2e
  simp only [hparse, he2e, findExtra_none e2eToplinks hall]
  rw [if_neg (by simpa using hne)]

/-- C4: when the top-level listing is reached and is not empty, the first
link, in list order, that ends in `artifacts/` is selected and the resolution
continues with `gcsPrefix ++ link` as the artifacts URL; when no link ends in
`artifacts/` the error "Failed to find artifacts link in" the list is
returned; and an error with that text is returned exactly in that case. -/
theorem getTarURLFromProw_selects_artifacts (L : Lib) (W : World)
    (baseURL gcsURL startedURL finishedURL : String) (startTime finishedTime : Time)
    (gcsToplinks : List String)
    (hparse : L.urlParse (strings.Replace baseURL prowPrefix gcsPrefix) = .ok gcsURL)
    (hstart : getTimeStampFromProwJSON L W (gcsURL ++ "/started.json")
      = ([.get startedURL], .ok startTime))
    (hfinished : getTimeStampFromProwJSON L W (gcsURL ++ "/finished.json")
      = ([.get finishedURL], .ok finishedTime))
    (htop : getLinksFromURL L W gcsURL = ([.get gcsURL], .ok gcsToplinks))
    (hne : gcsToplinks ≠ []) :
    (∀ pre link post, gcsToplinks = pre ++ link :: post →
      (∀ p ∈ pre, strings.HasSuffix p "artifacts/" = false) →
      strings.HasSuffix link "artifacts/" = true →
      getTarURLFromProw L W baseURL
        = (resolveArtifacts L W gcsURL ⟨startTime, finishedTime, ""⟩
            (gcsPrefix ++ link)).after
            [.get startedURL, .get finishedURL, .get gcsURL])
    ∧ ((∀ p ∈ gcsToplinks, strings.HasSuffix p "artifacts/" = false) →
      getTarURLFromProw L W baseURL
        = ⟨[.get startedURL, .get finishedURL, .get gcsURL],
            some (⟨startTime, finishedTime, ""⟩,
              some ("Failed to find artifacts link in " ++ fmtStrings gcsToplinks))⟩)
    ∧ (failsWith (getTarURLFromProw L W baseURL) "Failed to find artifacts link in "
      ↔ ∀ p ∈ gcsToplinks, strings.HasSuffix p "artifacts/" = false) := by
  have hreach := getTarURLFromProw_reach_top L W baseURL gcsURL startedURL finishedURL
    startTime finishedTime hparse hstart hfinished
  have hfound : ∀ pre link post, gcsToplinks = pre ++ link :: post →
      (∀ p ∈ pre, strings.HasSuffix p "artifacts/" = false) →
      strings.HasSuffix link "artifacts/" = true →
      getTarURLFromProw L W baseURL
        = (resolveArtifacts L W gcsURL ⟨startTime, finishedTime, ""⟩
            (gcsPrefix ++ link)).after
            [.get startedURL, .get finishedURL, .get gcsURL] := by
    intro pre link post hsplit hpre hlink
    rw [hreach, resolveTop_reach_artifacts L W gcsURL _ pre post link (hsplit ▸ htop) hpre hlink,
      Run.after_after]
    rfl
  have hnone : (∀ p ∈ gcsToplinks, strings.HasSuffix p "artifacts/" = false) →
      getTarURLFromProw L W baseURL
        = ⟨[.get startedURL, .get finishedURL, .get gcsURL],
            some (⟨startTime, finishedTime, ""⟩,
              some ("Failed to find artifacts link in " ++ fmtStrings gcsToplinks))⟩ := by
    intro hall
    rw [hreach]
    unfold resolveTop
    simp only [htop, (findArtifacts_eq_empty_iff gcsToplinks).mpr hall]
    rw [if_neg (by simpa using hne)]
    rfl
  refine ⟨hfound, hnone, ?_, ?_⟩
  · intro hfail
    by_contra hnot
    push_neg at hnot
    obtain ⟨q, hq, hqs⟩ := hnot
    simp only [Bool.not_eq_false] at hqs
    obtain ⟨pre, link, post, hsplit, hpre, hlink⟩ :=
      exists_first_split (fun x => strings.HasSuffix x "artifacts/") gcsToplinks ⟨q, hq, hqs⟩
    rw [hfound pre link post hsplit hpre hlink] at hfail
    exact resolveArtifacts_not_find_artifacts _ _ _ _ _ hfail
  · intro hall
    exact ⟨_, _, by rw [hnone hall]⟩

/-- Witness of C4: the top-level listing of the example has two links, the
second ends in `artifacts/` and is the one the resolution continues with. -/
theorem getTarURLFromProw_selects_artifacts_witness :
    getLinksFromURL demoLib (demoArchiveWorld (.error "unused"))
        "https://gcsweb-ci.svc.ci.openshift.org/gcs/b/j/1"
      = ([.get "https://gcsweb-ci.svc.ci.openshift.org/gcs/b/j/1"],
          .ok ["/gcs/b/j/", "/gcs/b/j/1/artifacts/"])
    ∧ getTarURLFromProw demoLib (demoArchiveWorld (.error "unused")) demoReport
      = (resolveArtifacts demoLib (demoArchiveWorld (.error "unused"))
          "https://gcsweb-ci.svc.ci.openshift.org/gcs/b/j/1" demoInfo
          (gcsPrefix ++ "/gcs/b/j/1/artifacts/")).after
          [.get "https://gcsweb-ci.svc.ci.openshift.org/gcs/b/j/1/started.json",
            .get "https://gcsweb-ci.svc.ci.openshift.org/gcs/b/j/1/finished.json",
            .get "https://gcsweb-ci.svc.ci.openshift.org/gcs/b/j/1"] :=
  ⟨rfl,
    (getTarURLFromProw_selects_artifacts demoLib (demoArchiveWorld (.error "unused"))
      demoReport "https://gcsweb-ci.svc.ci.openshift.org/gcs/b/j/1"
      "https://gcsweb-ci.svc.ci.openshift.org/gcs/b/j/1/started.json"
      "https://gcsweb-ci.svc.ci.openshift.org/gcs/b/j/1/finished.json"
      (.unix 100) (.unix 200) ["/gcs/b/j/", "/gcs/b/j/1/artifacts/"]
      rfl rfl rfl rfl (by decide)).1
      ["/gcs/b/j/"] "/gcs/b/j/1/artifacts/" [] rfl (by decide) (by decide)⟩

/-! ## The artifacts level: the e2e link -/

/-- C1 as stated fails: the only link of the artifacts listing ends in two
slashes; its last non-empty segment is `e2e-aws`, which contains `e2e`, but
the code looks no further back than the second-to-last piece, finds the empty
string, and returns the error "Failed to find e2e link". -/
theorem getTarURLFromProw_misses_e2e_after_two_slashes :
    lastNonEmptySegment "/gcs/b/j/1/artifacts/e2e-aws//" = some "e2e-aws"
    ∧ strings.Contains "e2e-aws" e2ePrefix = true
    ∧ lastPathSegment "/gcs/b/j/1/artifacts/e2e-aws//" = some ""
    ∧ (getTarURLFromProw demoLib
        (demoWorld demoTop "/gcs/b/j/1/artifacts/e2e-aws//" "" "" (.error "unused"))
        demoReport).out
      = some (demoInfo,
          some "Failed to find e2e link in [/gcs/b/j/1/artifacts/e2e-aws//]") := by
  refine ⟨by decide, by decide, by decide, by decide⟩

/-- C1 amended: when the artifacts listing is reached and is not empty, the
first link, in list order, whose last piece between slashes (or the piece
before it, when the last is empty) contains `e2e` is selected, provided no
link before it is the empty string, and the resolution continues with
`gcsPrefix ++ link` as the e2e URL; when no link is empty and none has such a
piece, the error "Failed to find e2e link in" the list is returned; and on a
listing without an empty link an error with that text is returned exactly in
that case. -/
theorem getTarURLFromProw_selects_e2e (L : Lib) (W : World)
    (baseURL gcsURL startedURL finishedURL : String) (startTime finishedTime : Time)
    (pre post : List String) (link artifactsURL : String) (artifactLinks : List String)
    (hparse : L.urlParse (strings.Replace baseURL prowPrefix gcsPrefix) = .ok gcsURL)
    (hstart : getTimeStampFromProwJSON L W (gcsURL ++ "/started.json")
      = ([.get startedURL], .ok startTime))
    (hfinished : getTimeStampFromProwJSON L W (gcsURL ++ "/finished.json")
      = ([.get finishedURL], .ok finishedTime))
    (htop : getLinksFromURL L W gcsURL = ([.get gcsURL], .ok (pre ++ link :: post)))
    (hpre : ∀ p ∈ pre, strings.HasSuffix p "artifacts/" = false)
    (hlink : strings.HasSuffix link "artifacts/" = true)
    (hparseA : L.urlParse (gcsPrefix ++ link) = .ok artifactsURL)
    (harts : getLinksFromURL L W artifactsURL = ([.get artifactsURL], .ok artifactLinks))
    (hne : artifactLinks ≠ []) :
    (∀ pre2 e2e post2, artifactLinks = pre2 ++ e2e :: post2 →
      (∀ p ∈ pre2, p ≠ "" ∧ hasE2eSegment p = false) →
      hasE2eSegment e2e = true →
      getTarURLFromProw L W baseURL
        = (resolveE2e L W ⟨startTime, finishedTime, ""⟩ (gcsPrefix ++ e2e)).after
            [.get startedURL, .get finishedURL, .get gcsURL, .get artifactsURL])
    ∧ ((∀ p ∈ artifactLinks, p ≠ "" ∧ hasE2eSegment p = false) →
      getTarURLFromProw L W baseURL
        = ⟨[.get startedURL, .get finishedURL, .get gcsURL, .get artifactsURL],
            some (⟨startTime, finishedTime, ""⟩,
              some ("Failed to find e2e link in " ++ fmtStrings artifactLinks))⟩)
    ∧ ((∀ p ∈ artifactLinks, p ≠ "") →
      (failsWith (getTarURLFromProw L W baseURL) "Failed to find e2e link in "
        ↔ ∀ p ∈ artifactLinks, hasE2eSegment p = false)) := by
  have hreach := getTarURLFromProw_reach_artifacts L W baseURL gcsURL startedURL
    finishedURL startTime finishedTime pre post link hparse hstart hfinished htop hpre hlink
  have hfound : ∀ pre2 e2e post2, artifactLinks = pre2 ++ e2e :: post2 →
      (∀ p ∈ pre2, p ≠ "" ∧ hasE2eSegment p = false) →
      hasE2eSegment e2e = true →
      getTarURLFromProw L W baseURL
        = (resolveE2e L W ⟨startTime, finishedTime, ""⟩ (gcsPrefix ++ e2e)).after
            [.get startedURL, .get finishedURL, .get gcsURL, .get artifactsURL] := by
    intro pre2 e2e post2 hsplit hpre2 he2e
    rw [hreach, resolveArtifacts_reach_e2e L W gcsURL _ _ artifactsURL pre2 post2 e2e hparseA
      (hsplit ▸ harts) hpre2 he2e, Run.after_after]
    rfl
  have hnone : (∀ p ∈ artifactLinks, p ≠ "" ∧ hasE2eSegment p = false) →
      getTarURLFromProw L W baseURL
        = ⟨[.get startedURL, .get finishedURL, .get gcsURL, .get artifactsURL],
            some (⟨startTime, finishedTime, ""⟩,
              some ("Failed to find e2e link in " ++ fmtStrings artifactLinks))⟩ := by
    intro hall
    rw [hreach, resolveArtifacts_no_e2e L W gcsURL _ _ artifactsURL artifactLinks hparseA
      harts hne hall]
    rfl
  refine ⟨hfound, hnone, fun hnonempty => ⟨?_, ?_⟩⟩
  · intro hfail
    by_contra hnot
    push_neg at hnot
    obtain ⟨q, hq, hqs⟩ := hnot
    simp only [Bool.not_eq_false] at hqs
    obtain ⟨pre2, e2e, post2, hsplit, hpre2, he2e⟩ :=
      exists_first_split hasE2eSegment artifactLinks ⟨q, hq, hqs⟩
    have hpre2ne : ∀ p ∈ pre2, p ≠ "" ∧ hasE2eSegment p = false := fun p hp =>
      ⟨hnonempty p (by rw [hsplit]; exact List.mem_append_left _ hp), hpre2 p hp⟩
    rw [hfound pre2 e2e post2 hsplit hpre2ne he2e] at hfail
    exact resolveE2e_not_find_e2e _ _ _ _ hfail
  · intro hall
    exact ⟨_, _, by rw [hnone fun p hp => ⟨hnonempty p hp, hall p hp⟩]⟩

/-- Witness of C1 amended: in the artifacts listing of the example the first
link has the segment `build-log.txt`, the second the segment `e2e-aws` before
its final slash, and the resolution continues with the second. -/
theorem getTarURLFromProw_selects_e2e_witness :
    hasE2eSegment "/gcs/b/j/1/artifacts/build-log.txt" = false
    ∧ hasE2eSegment "/gcs/b/j/1/artifacts/e2e-aws/" = true
    ∧ getTarURLFromProw demoLib (demoArchiveWorld (.error "unused")) demoReport
      = (resolveE2e demoLib (demoArchiveWorld (.error "unused")) demoInfo
          (gcsPrefix ++ "/gcs/b/j/1/artifacts/e2e-aws/")).after
          [.get "https://gcsweb-ci.svc.ci.openshift.org/gcs/b/j/1/started.json",
            .get "https://gcsweb-ci.svc.ci.openshift.org/gcs/b/j/1/finished.json",
            .get "https://gcsweb-ci.svc.ci.openshift.org/gcs/b/j/1",
            .get "https://gcsweb-ci.svc.ci.openshift.org/gcs/b/j/1/artifacts/"] :=
  ⟨by decide, by decide,
    (getTarURLFromProw_selects_e2e demoLib (demoArchiveWorld (.error "unused"))
      demoReport "https://gcsweb-ci.svc.ci.openshift.org/gcs/b/j/1"
      "https://gcsweb-ci.svc.ci.openshift.org/gcs/b/j/1/started.json"
      "https://gcsweb-ci.svc.ci.openshift.org/gcs/b/j/1/finished.json"
      (.unix 100) (.unix 200) ["/gcs/b/j/"] [] "/gcs/b/j/1/artifacts/"
      "https://gcsweb-ci.svc.ci.openshift.org/gcs/b/j/1/artifacts/"
      ["/gcs/b/j/1/artifacts/build-log.txt", "/gcs/b/j/1/artifacts/e2e-aws/"]
      rfl rfl rfl rfl (by decide) (by decide) rfl rfl (by decide)).1
      ["/gcs/b/j/1/artifacts/build-log.txt"] "/gcs/b/j/1/artifacts/e2e-aws/" [] rfl
      (by decide) (by decide)⟩

/-! ## The e2e level: the gather-extra link and the metrics URL -/

theorem getTarURLFromProw_reach_e2e (L : Lib) (W : World)
    (baseURL gcsURL startedURL finishedURL : String) (startTime finishedTime : Time)
    (pre post : List String) (link artifactsURL : String)
    (pre2 post2 : List String) (e2e : String)
    (hparse : L.urlParse (strings.Replace baseURL prowPrefix gcsPrefix) = .ok gcsURL)
    (hstart : getTimeStampFromProwJSON L W (gcsURL ++ "/started.json")
      = ([.get startedURL], .ok startTime))
    (hfinished : getTimeStampFromProwJSON L W (gcsURL ++ "/finished.json")
      = ([.get finishedURL], .ok finishedTime))
    (htop : getLinksFromURL L W gcsURL = ([.get gcsURL], .ok (pre ++ link :: post)))
    (hpre : ∀ p ∈ pre, strings.HasSuffix p "artifacts/" = false)
    (hlink : strings.HasSuffix link "artifacts/" = true)
    (hparseA : L.urlParse (gcsPrefix ++ link) = .ok artifactsURL)
    (harts : getLinksFromURL L W artifactsURL
      = ([.get artifactsURL], .ok (pre2 ++ e2e :: post2)))
    (hpre2 : ∀ p ∈ pre2, p ≠ "" ∧ hasE2eSegment p = false)
    (he2e : hasE2eSegment e2e = true) :
    getTarURLFromProw L W baseURL
      = (resolveE2e L W ⟨startTime, finishedTime, ""⟩ (gcsPrefix ++ e2e)).after
          [.get startedURL, .get finishedURL, .get gcsURL, .get artifactsURL] := by
  rw [getTarURLFromProw_reach_artifacts L W baseURL gcsURL startedURL finishedURL startTime
      finishedTime pre post link hparse hstart hfinished htop hpre hlink,
    resolveArtifacts_reach_e2e L W gcsURL _ _ artifactsURL pre2 post2 e2e hparseA harts
      hpre2 he2e, Run.after_after]
  rfl

/-- C2 as stated fails: the e2e listing holds one link, which ends in two
slashes and whose last non-empty segment is exactly `gather-extra`; the code
reads the empty piece before the final slash, keeps the e2e folder as working
URL and returns the metrics URL under `e2e-aws/`, not the one under the
`gather-extra` link. -/
theorem getTarURLFromProw_misses_gather_extra_after_two_slashes :
    lastNonEmptySegment "/gcs/b/j/1/artifacts/e2e-aws/gather-extra//" = some extraPath
    ∧ hasExtraSegment "/gcs/b/j/1/artifacts/e2e-aws/gather-extra//" = false
    ∧ (getTarURLFromProw demoLib
        (demoWorld demoTop "/gcs/b/j/1/artifacts/e2e-aws/"
          "https://gcsweb-ci.svc.ci.openshift.org/gcs/b/j/1/artifacts/e2e-aws/"
          "/gcs/b/j/1/artifacts/e2e-aws/gather-extra//" (.error "unused"))
        demoReport).out
      = some (⟨.unix 100, .unix 200, demoMetricsURL⟩, none)
    ∧ resolveMetrics demoLib demoInfo
        (gcsPrefix ++ "/gcs/b/j/1/artifacts/e2e-aws/gather-extra//")
      = (⟨.unix 100, .unix 200,
          "https://storage.googleapis.com/b/j/1/artifacts/e2e-aws/gather-extra//"
            ++ "metrics/prometheus.tar"⟩, none) := by
  refine ⟨by decide, by decide, by decide, by decide⟩

/-- C2 amended: when the e2e listing is reached and is not empty, the first
link, in list order, whose last piece between slashes (or the piece before
it, when the last is empty) is exactly `gather-extra` replaces the working
e2e URL by `gcsPrefix ++ link`, provided no link before it is the empty
string and the new URL parses; when no link is empty and none has such a
piece, the working e2e URL chosen at the artifacts level is used unchanged,
and the only error that can follow is that of the metrics URL. -/
theorem getTarURLFromProw_gather_extra (L : Lib) (W : World)
    (baseURL gcsURL startedURL finishedURL : String) (startTime finishedTime : Time)
    (pre post : List String) (link artifactsURL : String)
    (pre2 post2 : List String) (e2e e2eURL : String) (e2eToplinks : List String)
    (hparse : L.urlParse (strings.Replace baseURL prowPrefix gcsPrefix) = .ok gcsURL)
    (hstart : getTimeStampFromProwJSON L W (gcsURL ++ "/started.json")
      = ([.get startedURL], .ok startTime))
    (hfinished : getTimeStampFromProwJSON L W (gcsURL ++ "/finished.json")
      = ([.get finishedURL], .ok finishedTime))
    (htop : getLinksFromURL L W gcsURL = ([.get gcsURL], .ok (pre ++ link :: post)))
    (hpre : ∀ p ∈ pre, strings.HasSuffix p "artifacts/" = false)
    (hlink : strings.HasSuffix link "artifacts/" = true)
    (hparseA : L.urlParse (gcsPrefix ++ link) = .ok artifactsURL)
    (harts : getLinksFromURL L W artifactsURL
      = ([.get artifactsURL], .ok (pre2 ++ e2e :: post2)))
    (hpre2 : ∀ p ∈ pre2, p ≠ "" ∧ hasE2eSegment p = false)
    (he2e : hasE2eSegment e2e = true)
    (hparseE : L.urlParse (gcsPrefix ++ e2e) = .ok e2eURL)
    (hlist : getLinksFromURL L W e2eURL = ([.get e2eURL], .ok e2eToplinks))
    (hne : e2eToplinks ≠ []) :
    (∀ pre3 extra post3 e2eURL2, e2eToplinks = pre3 ++ extra :: post3 →
      (∀ p ∈ pre3, p ≠ "" ∧ hasExtraSegment p = false) →
      hasExtraSegment extra = true →
      L.urlParse (gcsPrefix ++ extra) = .ok e2eURL2 →
      getTarURLFromProw L W baseURL
        = ⟨[.get startedURL, .get finishedURL, .get gcsURL, .get artifactsURL,
              .get e2eURL],
            some (resolveMetrics L ⟨startTime, finishedTime, ""⟩ e2eURL2)⟩)
    ∧ ((∀ p ∈ e2eToplinks, p ≠ "" ∧ hasExtraSegment p = false) →
      getTarURLFromProw L W baseURL
        = ⟨[.get startedURL, .get finishedURL, .get gcsURL, .get artifactsURL,
              .get e2eURL],
            some (resolveMetrics L ⟨startTime, finishedTime, ""⟩ e2eURL)⟩) := by
  have hreach := getTarURLFromProw_reach_e2e L W baseURL gcsURL startedURL finishedURL
    startTime finishedTime pre post link artifactsURL pre2 post2 e2e hparse hstart hfinished
    htop hpre hlink hparseA harts hpre2 he2e
  refine ⟨?_, ?_⟩
  · intro pre3 extra post3 e2eURL2 hsplit hpre3 hextra hparse2
    rw [hreach, resolveE2e_found_extra L W _ _ e2eURL e2eURL2 pre3 post3 extra hparseE
      (hsplit ▸ hlist) hpre3 hextra hparse2]
    rfl
  · intro hall
    rw [hreach, resolveE2e_no_extra L W _ _ e2eURL e2eToplinks hparseE hlist hne hall]
    rfl

/-- Witness of C2 amended: the e2e listing of the example holds a link to
`metrics/` and then one to `gather-extra/`; the metrics URL is the one under
the `gather-extra` link. -/
theorem getTarURLFromProw_gather_extra_witness :
    hasExtraSegment "/gcs/b/j/1/artifacts/e2e-aws/gather-extra/" = true
    ∧ getTarURLFromProw demoLib
        (demoWorld demoTop "/gcs/b/j/1/artifacts/e2e-aws/"
          "https://gcsweb-ci.svc.ci.openshift.org/gcs/b/j/1/artifacts/e2e-aws/"
          "/gcs/b/j/1/artifacts/e2e-aws/metrics/ /gcs/b/j/1/artifacts/e2e-aws/gather-extra/"
          (.error "unused"))
        demoReport
      = ⟨[.get "https://gcsweb-ci.svc.ci.openshift.org/gcs/b/j/1/started.json",
            .get "https://gcsweb-ci.svc.ci.openshift.org/gcs/b/j/1/finished.json",
            .get "https://gcsweb-ci.svc.ci.openshift.org/gcs/b/j/1",
            .get "https://gcsweb-ci.svc.ci.openshift.org/gcs/b/j/1/artifacts/",
            .get "https://gcsweb-ci.svc.ci.openshift.org/gcs/b/j/1/artifacts/e2e-aws/"],
          some (⟨.unix 100, .unix 200,
            "https://storage.googleapis.com/b/j/1/artifacts/e2e-aws/gather-extra/"
              ++ "metrics/prometheus.tar"⟩, none)⟩ :=
  ⟨by decide,
    (getTarURLFromProw_gather_extra demoLib
      (demoWorld demoTop "/gcs/b/j/1/artifacts/e2e-aws/"
        "https://gcsweb-ci.svc.ci.openshift.org/gcs/b/j/1/artifacts/e2e-aws/"
        "/gcs/b/j/1/artifacts/e2e-aws/metrics/ /gcs/b/j/1/artifacts/e2e-aws/gather-extra/"
        (.error "unused"))
      demoReport "https://gcsweb-ci.svc.ci.openshift.org/gcs/b/j/1"
      "https://gcsweb-ci.svc.ci.openshift.org/gcs/b/j/1/started.json"
      "https://gcsweb-ci.svc.ci.openshift.org/gcs/b/j/1/finished.json"
      (.unix 100) (.unix 200) ["/gcs/b/j/"] [] "/gcs/b/j/1/artifacts/"
      "https://gcsweb-ci.svc.ci.openshift.org/gcs/b/j/1/artifacts/"
      [] [] "/gcs/b/j/1/artifacts/e2e-aws/"
      "https://gcsweb-ci.svc.ci.openshift.org/gcs/b/j/1/artifacts/e2e-aws/"
      ["/gcs/b/j/1/artifacts/e2e-aws/metrics/", "/gcs/b/j/1/artifacts/e2e-aws/gather-extra/"]
      rfl rfl rfl rfl (by decide) (by decide) rfl rfl (by decide) (by decide) rfl rfl
      (by decide)).1
      ["/gcs/b/j/1/artifacts/e2e-aws/metrics/"] "/gcs/b/j/1/artifacts/e2e-aws/gather-extra/"
      [] "https://gcsweb-ci.svc.ci.openshift.org/gcs/b/j/1/artifacts/e2e-aws/gather-extra/"
      rfl (by decide) (by decide) rfl⟩

/-- C3: on a three-level listing where every step succeeds, the e2e listing
has no `gather-extra` link, and `url.Parse` followed by `String()` gives back
the e2e URL and the metrics URL unchanged, `getTarURLFromProw` sends the five
requests and returns, with a nil error, the `MetricsURL` that is
`gcsPrefix ++ href ++ "metrics/prometheus.tar"` for the selected e2e href,
with every occurrence of `gcsPrefix ++ "/gcs"` replaced by `storagePrefix`. -/
theorem getTarURLFromProw_metricsURL (L : Lib) (W : World)
    (baseURL gcsURL startedURL finishedURL : String) (startTime finishedTime : Time)
    (pre post : List String) (link artifactsURL : String)
    (pre2 post2 : List String) (e2e : String) (e2eToplinks : List String)
    (hparse : L.urlParse (strings.Replace baseURL prowPrefix gcsPrefix) = .ok gcsURL)
    (hstart : getTimeStampFromProwJSON L W (gcsURL ++ "/started.json")
      = ([.get startedURL], .ok startTime))
    (hfinished : getTimeStampFromProwJSON L W (gcsURL ++ "/finished.json")
      = ([.get finishedURL], .ok finishedTime))
    (htop : getLinksFromURL L W gcsURL = ([.get gcsURL], .ok (pre ++ link :: post)))
    (hpre : ∀ p ∈ pre, strings.HasSuffix p "artifacts/" = false)
    (hlink : strings.HasSuffix link "artifacts/" = true)
    (hparseA : L.urlParse (gcsPrefix ++ link) = .ok artifactsURL)
    (harts : getLinksFromURL L W artifactsURL
      = ([.get artifactsURL], .ok (pre2 ++ e2e :: post2)))
    (hpre2 : ∀ p ∈ pre2, p ≠ "" ∧ hasE2eSegment p = false)
    (he2e : hasE2eSegment e2e = true)
    (hparseE : L.urlParse (gcsPrefix ++ e2e) = .ok (gcsPrefix ++ e2e))
    (hlist : getLinksFromURL L W (gcsPrefix ++ e2e)
      = ([.get (gcsPrefix ++ e2e)], .ok e2eToplinks))
    (hne : e2eToplinks ≠ [])
    (hall : ∀ p ∈ e2eToplinks, p ≠ "" ∧ hasExtraSegment p = false)
    (hparseM : L.urlParse
        (strings.Replace (gcsPrefix ++ e2e ++ promTarPath) (gcsPrefix ++ "/gcs") storagePrefix)
      = .ok (strings.Replace (gcsPrefix ++ e2e ++ promTarPath) (gcsPrefix ++ "/gcs")
          storagePrefix)) :
    getTarURLFromProw L W baseURL
      = ⟨[.get startedURL, .get finishedURL, .get gcsURL, .get artifactsURL,
            .get (gcsPrefix ++ e2e)],
          some (⟨startTime, finishedTime,
            strings.Replace (gcsPrefix ++ e2e ++ promTarPath) (gcsPrefix ++ "/gcs")
              storagePrefix⟩, none)⟩ := by
  rw [getTarURLFromProw_reach_e2e L W baseURL gcsURL startedURL finishedURL
      startTime finishedTime pre post link artifactsURL pre2 post2 e2e hparse hstart hfinished
      htop hpre hlink hparseA harts hpre2 he2e,
    resolveE2e_no_extra L W _ _ (gcsPrefix ++ e2e) e2eToplinks hparseE hlist hne hall]
  unfold resolveMetrics
  simp only [hparseM]
  rfl

/-- Witness of C3: the selected href
`/gcs/origin-ci-test/logs/job/1/artifacts/e2e-aws/` gives the metrics URL
under `storage.googleapis.com`. -/
theorem getTarURLFromProw_metricsURL_witness :
    strings.Replace
        (gcsPrefix ++ "/gcs/origin-ci-test/logs/job/1/artifacts/e2e-aws/" ++ promTarPath)
        (gcsPrefix ++ "/gcs") storagePrefix
      = "https://storage.googleapis.com/origin-ci-test/logs/job/1/artifacts/e2e-aws/"
          ++ "metrics/prometheus.tar"
    ∧ (getTarURLFromProw demoLib originWorld
        "https://prow.svc.ci.openshift.org/view/gcs/origin-ci-test/logs/job/1").out
      = some (⟨.unix 1580000000, .unix 1580003600,
          "https://storage.googleapis.com/origin-ci-test/logs/job/1/artifacts/e2e-aws/"
            ++ "metrics/prometheus.tar"⟩, none) :=
  ⟨by decide,
    congrArg Run.out (getTarURLFromProw_metricsURL demoLib originWorld
      "https://prow.svc.ci.openshift.org/view/gcs/origin-ci-test/logs/job/1"
      "https://gcsweb-ci.svc.ci.openshift.org/gcs/origin-ci-test/logs/job/1"
      "https://gcsweb-ci.svc.ci.openshift.org/gcs/origin-ci-test/logs/job/1/started.json"
      "https://gcsweb-ci.svc.ci.openshift.org/gcs/origin-ci-test/logs/job/1/finished.json"
      (.unix 1580000000) (.unix 1580003600) [] []
      "/gcs/origin-ci-test/logs/job/1/artifacts/"
      "https://gcsweb-ci.svc.ci.openshift.org/gcs/origin-ci-test/logs/job/1/artifacts/"
      [] [] "/gcs/origin-ci-test/logs/job/1/artifacts/e2e-aws/"
      ["/gcs/origin-ci-test/logs/job/1/artifacts/e2e-aws/metrics/"]
      rfl rfl rfl rfl (by decide) (by decide) rfl rfl (by decide) (by decide) rfl rfl
      (by decide) (by decide) rfl)⟩

/-! ## The order of the requests -/

theorem getLinksFromURL_eq (L : Lib) (W : World) (url : String) :
    getLinksFromURL L W url = ([.get url], (getLinksFromURL L W url).2) := by
  unfold getLinksFromURL
  split <;> rfl

theorem getLinksFromURL_ok (L : Lib) (W : World) (url : String) (links : List String)
    (h : (getLinksFromURL L W url).2 = .ok links) : ∃ resp, W.get url = .ok resp := by
  unfold getLinksFromURL at h
  split at h
  · cases h
  · exact ⟨_, by assumption⟩

theorem stops_nil (W : World) (out : Option (ProwInfo × Option String)) :
    StopsAtFailure W ⟨[], out⟩ := by
  intro u msg hu
  cases hu

theorem stops_single_error (W : World) (url : String) (info : ProwInfo) (err : String) :
    StopsAtFailure W ⟨[.get url], some (info, some err)⟩ := by
  intro u msg hu _
  have : u = url := by simpa using hu
  subst this
  exact ⟨rfl, info, err, rfl⟩

theorem stops_single_ok (W : World) (url : String) (resp : Response)
    (out : Option (ProwInfo × Option String)) (h : W.get url = .ok resp) :
    StopsAtFailure W ⟨[.get url], out⟩ := by
  intro u msg hu hfail
  have : u = url := by simpa using hu
  subst this
  rw [h] at hfail
  cases hfail

theorem stops_after (W : World) (pre : List Request) (r : Run (ProwInfo × Option String))
    (hpre : ∀ u, Request.get u ∈ pre → ∃ resp, W.get u = .ok resp)
    (hr : StopsAtFailure W r) : StopsAtFailure W (r.after pre) := by
  intro u msg hu hfail
  rcases List.mem_append.mp hu with hmem | hmem
  · obtain ⟨resp, hok⟩ := hpre u hmem
    rw [hok] at hfail
    cases hfail
  · obtain ⟨hlast, hout⟩ := hr u msg hmem hfail
    refine ⟨?_, hout⟩
    show (pre ++ r.fetches).getLast? = _
    rw [List.getLast?_append, hlast]
    rfl

theorem resolveE2e_trace (L : Lib) (W : World) (prowInfo : ProwInfo) (tmpE2eURL : String) :
    (∃ e2eURL, (resolveE2e L W prowInfo tmpE2eURL).fetches <+: [.get e2eURL]
      ∧ (0 < (resolveE2e L W prowInfo tmpE2eURL).fetches.length →
          L.urlParse tmpE2eURL = .ok e2eURL))
    ∧ StopsAtFailure W (resolveE2e L W prowInfo tmpE2eURL)
    ∧ (∀ info, (resolveE2e L W prowInfo tmpE2eURL).out = some (info, none) →
        (resolveE2e L W prowInfo tmpE2eURL).fetches.length = 1) := by
  unfold resolveE2e
  rcases hp : L.urlParse tmpE2eURL with msg | e2eURL
  · exact ⟨⟨"", List.nil_prefix, fun h => by simp at h⟩, stops_nil _ _,
      fun info h => by simp at h⟩
  · simp only
    rw [getLinksFromURL_eq]
    have hshape : ∃ u, [Request.get e2eURL] <+: [Request.get u]
        ∧ (0 < [Request.get e2eURL].length →
          (Except.ok e2eURL : Except String String) = .ok u) :=
      ⟨e2eURL, List.prefix_refl _, fun _ => rfl⟩
    rcases hl : (getLinksFromURL L W e2eURL).2 with msg | links
    · exact ⟨hshape, stops_single_error _ _ _ _, fun info h => by simp at h⟩
    · obtain ⟨resp, hok⟩ := getLinksFromURL_ok L W e2eURL links hl
      simp only
      split
      · exact ⟨hshape, stops_single_error _ _ _ _, fun info h => by simp at h⟩
      · split
        · exact ⟨hshape, stops_single_ok _ _ _ _ hok, fun info h => rfl⟩
        · exact ⟨hshape, stops_single_ok _ _ _ _ hok, fun info h => rfl⟩
        · split
          · exact ⟨hshape, stops_single_ok _ _ _ _ hok, fun info h => rfl⟩
          · exact ⟨hshape, stops_single_ok _ _ _ _ hok, fun info h => rfl⟩

theorem findE2e_some (links : List String) (tmpE2eURL : String)
    (h : findE2e links = some tmpE2eURL) (hne : tmpE2eURL ≠ "") :
    ∃ link, hasE2eSegment link = true ∧ tmpE2eURL = gcsPrefix ++ link := by
  induction links with
  | nil =>
    simp only [findE2e, Option.some.injEq] at h
    exact absurd h.symm hne
  | cons p rest ih =>
    unfold findE2e at h
    split at h
    · cases h
    · rename_i seg hseg
      split at h
      · rename_i hc
        refine ⟨p, ?_, (Option.some.inj h).symm⟩
        simp [hasE2eSegment, hseg, hc]
      · exact ih h

theorem findArtifacts_ne_empty (links : List String) (h : findArtifacts links ≠ "") :
    ∃ link, strings.HasSuffix link "artifacts/" = true
      ∧ findArtifacts links = gcsPrefix ++ link := by
  induction links with
  | nil => exact absurd rfl h
  | cons p rest ih =>
    unfold findArtifacts at h ⊢
    split
    · rename_i hc
      exact ⟨p, hc, rfl⟩
    · rename_i hc
      rw [if_neg hc] at h
      exact ih h

theorem resolveArtifacts_trace (L : Lib) (W : World) (gcsURL : String)
    (prowInfo : ProwInfo) (tmpArtifactsURL : String) :
    (∃ artifactsURL e2eURL,
      (resolveArtifacts L W gcsURL prowInfo tmpArtifactsURL).fetches
        <+: [.get artifactsURL, .get e2eURL]
      ∧ (0 < (resolveArtifacts L W gcsURL prowInfo tmpArtifactsURL).fetches.length →
          L.urlParse tmpArtifactsURL = .ok artifactsURL)
      ∧ (1 < (resolveArtifacts L W gcsURL prowInfo tmpArtifactsURL).fetches.length →
          ∃ link, hasE2eSegment link = true ∧ L.urlParse (gcsPrefix ++ link) = .ok e2eURL))
    ∧ StopsAtFailure W (resolveArtifacts L W gcsURL prowInfo tmpArtifactsURL)
    ∧ (∀ info, (resolveArtifacts L W gcsURL prowInfo tmpArtifactsURL).out = some (info, none) →
        (resolveArtifacts L W gcsURL prowInfo tmpArtifactsURL).fetches.length = 2) := by
  unfold resolveArtifacts
  rcases hp : L.urlParse tmpArtifactsURL with msg | artifactsURL
  · exact ⟨⟨"", "", List.nil_prefix, fun h => by simp at h, fun h => by simp at h⟩,
      stops_nil _ _, fun info h => by simp at h⟩
  · simp only
    rw [getLinksFromURL_eq]
    have hshape : ∃ u e2eURL, [Request.get artifactsURL] <+: [Request.get u, .get e2eURL]
        ∧ (0 < [Request.get artifactsURL].length →
          (Except.ok artifactsURL : Except String String) = .ok u)
        ∧ (1 < [Request.get artifactsURL].length →
          ∃ link, hasE2eSegment link = true ∧ L.urlParse (gcsPrefix ++ link) = .ok e2eURL) :=
      ⟨artifactsURL, "", ⟨[.get ""], rfl⟩, fun _ => rfl, fun h => by simp at h⟩
    rcases hl : (getLinksFromURL L W artifactsURL).2 with msg | links
    · exact ⟨hshape, stops_single_error _ _ _ _, fun info h => by simp at h⟩
    · obtain ⟨resp, hok⟩ := getLinksFromURL_ok L W artifactsURL links hl
      simp only
      split
      · exact ⟨hshape, stops_single_error _ _ _ _, fun info h => by simp at h⟩
      · split
        · exact ⟨hshape, stops_single_ok _ _ _ _ hok, fun info h => by simp at h⟩
        · rename_i tmpE2eURL hfind
          split
          · exact ⟨hshape, stops_single_error _ _ _ _, fun info h => by simp at h⟩
          · rename_i hne
            obtain ⟨link, hseg, htmp⟩ := findE2e_some links tmpE2eURL hfind hne
            obtain ⟨⟨e2eURL, hprefix, hparse⟩, hstops, hsucc⟩ :=
              resolveE2e_trace L W prowInfo tmpE2eURL
            refine ⟨⟨artifactsURL, e2eURL, ?_, fun _ => rfl, ?_⟩, ?_, ?_⟩
            · exact (List.prefix_append_right_inj [Request.get artifactsURL]).mpr hprefix
            · intro hlen
              refine ⟨link, hseg, ?_⟩
              rw [← htmp]
              apply hparse
              simp only [Run.after, List.length_append, List.length_singleton] at hlen
              omega
            · apply stops_after _ _ _ _ hstops
              intro u hu
              have : u = artifactsURL := by simpa using hu
              exact ⟨resp, this ▸ hok⟩
            · intro info h
              have := hsucc info h
              simp only [Run.after, List.length_append, List.length_singleton, this]

theorem resolveTop_trace (L : Lib) (W : World) (gcsURL : String) (prowInfo : ProwInfo) :
    (∃ artifactsURL e2eURL,
      (resolveTop L W gcsURL prowInfo).fetches
        <+: [.get gcsURL, .get artifactsURL, .get e2eURL]
      ∧ (1 < (resolveTop L W gcsURL prowInfo).fetches.length →
          ∃ link, strings.HasSuffix link "artifacts/" = true
            ∧ L.urlParse (gcsPrefix ++ link) = .ok artifactsURL)
      ∧ (2 < (resolveTop L W gcsURL prowInfo).fetches.length →
          ∃ link, hasE2eSegment link = true ∧ L.urlParse (gcsPrefix ++ link) = .ok e2eURL))
    ∧ StopsAtFailure W (resolveTop L W gcsURL prowInfo)
    ∧ (∀ info, (resolveTop L W gcsURL prowInfo).out = some (info, none) →
        (resolveTop L W gcsURL prowInfo).fetches.length = 3) := by
  unfold resolveTop
  simp only
  rw [getLinksFromURL_eq]
  have hshape : ∃ artifactsURL e2eURL,
      [Request.get gcsURL] <+: [Request.get gcsURL, .get artifactsURL, .get e2eURL]
      ∧ (1 < [Request.get gcsURL].length →
          ∃ link, strings.HasSuffix link "artifacts/" = true
            ∧ L.urlParse (gcsPrefix ++ link) = .ok artifactsURL)
      ∧ (2 < [Request.get gcsURL].length →
          ∃ link, hasE2eSegment link = true ∧ L.urlParse (gcsPrefix ++ link) = .ok e2eURL) :=
    ⟨"", "", ⟨[.get "", .get ""], rfl⟩, fun h => by simp at h, fun h => by simp at h⟩
  rcases hl : (getLinksFromURL L W gcsURL).2 with msg | links
  · exact ⟨hshape, stops_single_error _ _ _ _, fun info h => by simp at h⟩
  · obtain ⟨resp, hok⟩ := getLinksFromURL_ok L W gcsURL links hl
    simp only
    split
    · exact ⟨hshape, stops_single_error _ _ _ _, fun info h => by simp at h⟩
    · split
      · exact ⟨hshape, stops_single_error _ _ _ _, fun info h => by simp at h⟩
      · rename_i hne
        obtain ⟨link, hsuffix, htmp⟩ := findArtifacts_ne_empty links hne
        obtain ⟨⟨artifactsURL, e2eURL, hprefix, hparse, hseg⟩, hstops, hsucc⟩ :=
          resolveArtifacts_trace L W gcsURL prowInfo (findArtifacts links)
        refine ⟨⟨artifactsURL, e2eURL, ?_, ?_, ?_⟩, ?_, ?_⟩
        · exact (List.prefix_append_right_inj [Request.get gcsURL]).mpr hprefix
        · intro hlen
          refine ⟨link, hsuffix, ?_⟩
          rw [← htmp]
          apply hparse
          simp only [Run.after, List.length_append, List.length_singleton] at hlen
          omega
        · intro hlen
          apply hseg
          simp only [Run.after, List.length_append, List.length_singleton] at hlen
          omega
        · apply stops_after _ _ _ _ hstops
          intro u hu
          have : u = gcsURL := by simpa using hu
          exact ⟨resp, this ▸ hok⟩
        · intro info h
          have := hsucc info h
          simp only [Run.after, List.length_append, List.length_singleton, this]

/-- What `getTimeStampFromProwJSON` sends: nothing when the URL does not
parse, else one GET to the parsed URL; and it only returns a time when that
GET succeeded. -/
theorem getTimeStampFromProwJSON_trace (L : Lib) (W : World) (rawURL : String) :
    ((getTimeStampFromProwJSON L W rawURL).1 = []
      ∧ ∃ err, (getTimeStampFromProwJSON L W rawURL).2 = .error err)
    ∨ ∃ jsonURL, L.urlParse rawURL = .ok jsonURL
        ∧ (getTimeStampFromProwJSON L W rawURL).1 = [.get jsonURL]
        ∧ ((∃ err, (getTimeStampFromProwJSON L W rawURL).2 = .error err)
          ∨ ∃ t resp, (getTimeStampFromProwJSON L W rawURL).2 = .ok t
              ∧ W.get jsonURL = .ok resp) := by
  unfold getTimeStampFromProwJSON
  rcases hp : L.urlParse rawURL with msg | jsonURL
  · exact Or.inl ⟨rfl, _, rfl⟩
  · right
    refine ⟨jsonURL, rfl, ?_⟩
    simp only
    rcases hg : W.get jsonURL with msg | resp
    · exact ⟨rfl, Or.inl ⟨_, rfl⟩⟩
    · simp only
      split
      · exact ⟨rfl, Or.inl ⟨_, rfl⟩⟩
      · split
        · exact ⟨rfl, Or.inl ⟨_, rfl⟩⟩
        · exact ⟨rfl, Or.inr ⟨_, _, rfl, rfl⟩⟩

theorem getTarURLFromProw_trace (L : Lib) (W : World) (baseURL : String) :
    (∃ startedURL finishedURL gcsURL artifactsURL e2eURL,
      (getTarURLFromProw L W baseURL).fetches
        <+: [.get startedURL, .get finishedURL, .get gcsURL, .get artifactsURL,
              .get e2eURL]
      ∧ (0 < (getTarURLFromProw L W baseURL).fetches.length →
          L.urlParse (strings.Replace baseURL prowPrefix gcsPrefix) = .ok gcsURL
            ∧ L.urlParse (gcsURL ++ "/started.json") = .ok startedURL)
      ∧ (1 < (getTarURLFromProw L W baseURL).fetches.length →
          L.urlParse (gcsURL ++ "/finished.json") = .ok finishedURL)
      ∧ (3 < (getTarURLFromProw L W baseURL).fetches.length →
          ∃ link, strings.HasSuffix link "artifacts/" = true
            ∧ L.urlParse (gcsPrefix ++ link) = .ok artifactsURL)
      ∧ (4 < (getTarURLFromProw L W baseURL).fetches.length →
          ∃ link, hasE2eSegment link = true ∧ L.urlParse (gcsPrefix ++ link) = .ok e2eURL))
    ∧ StopsAtFailure W (getTarURLFromProw L W baseURL)
    ∧ (∀ info, (getTarURLFromProw L W baseURL).out = some (info, none) →
        (getTarURLFromProw L W baseURL).fetches.length = 5) := by
  unfold getTarURLFromProw
  simp only
  rcases hp : L.urlParse (strings.Replace baseURL prowPrefix gcsPrefix) with msg | gcsURL
  · exact ⟨⟨"", "", "", "", "", List.nil_prefix, fun h => by simp at h, fun h => by simp at h,
      fun h => by simp at h, fun h => by simp at h⟩, stops_nil _ _, fun info h => by simp at h⟩
  · simp only
    rcases getTimeStampFromProwJSON_trace L W (gcsURL ++ "/started.json") with
      ⟨hs1, err, hs2⟩ | ⟨startedURL, hps, hs1, ⟨err, hs2⟩ | ⟨startTime, resp, hs2, hgets⟩⟩
    · rw [hs1, hs2]
      exact ⟨⟨"", "", "", "", "", List.nil_prefix, fun h => by simp at h, fun h => by simp at h,
        fun h => by simp at h, fun h => by simp at h⟩, stops_nil _ _,
        fun info h => by simp at h⟩
    · rw [hs1, hs2]
      exact ⟨⟨startedURL, "", gcsURL, "", "", ⟨_, rfl⟩, fun _ => ⟨rfl, hps⟩,
        fun h => by simp at h, fun h => by simp at h, fun h => by simp at h⟩,
        stops_single_error _ _ _ _, fun info h => by simp at h⟩
    · rw [hs1, hs2]
      simp only
      rcases getTimeStampFromProwJSON_trace L W (gcsURL ++ "/finished.json") with
        ⟨hf1, err, hf2⟩ | ⟨finishedURL, hpf, hf1, ⟨err, hf2⟩ | ⟨finishedTime, resp2, hf2, hgetf⟩⟩
      · rw [hf1, hf2]
        exact ⟨⟨startedURL, "", gcsURL, "", "", ⟨_, rfl⟩, fun _ => ⟨rfl, hps⟩,
          fun h => by simp at h, fun h => by simp at h, fun h => by simp at h⟩,
          stops_single_ok _ _ _ _ hgets, fun info h => by simp at h⟩
      · rw [hf1, hf2]
        refine ⟨⟨startedURL, finishedURL, gcsURL, "", "", ⟨_, rfl⟩, fun _ => ⟨rfl, hps⟩,
          fun _ => hpf, fun h => by simp at h, fun h => by simp at h⟩, ?_,
          fun info h => by simp at h⟩
        intro u msg hu hfail
        simp only [List.cons_append, List.nil_append, List.mem_cons, Request.get.injEq,
          List.mem_singleton, List.not_mem_nil, or_false] at hu
        rcases hu with rfl | rfl
        · rw [hgets] at hfail; cases hfail
        · exact ⟨rfl, _, _, rfl⟩
      · rw [hf1, hf2]
        simp only
        obtain ⟨⟨artifactsURL, e2eURL, hprefix, hparseA, hparseE⟩, hstops, hsucc⟩ :=
          resolveTop_trace L W gcsURL ⟨startTime, finishedTime, ""⟩
        refine ⟨⟨startedURL, finishedURL, gcsURL, artifactsURL, e2eURL, ?_,
          fun _ => ⟨rfl, hps⟩, fun _ => hpf, ?_, ?_⟩, ?_, ?_⟩
        · exact (List.prefix_append_right_inj
            [Request.get startedURL, Request.get finishedURL]).mpr hprefix
        · intro hlen
          apply hparseA
          simp only [Run.after, List.length_append, List.length_cons, List.length_nil] at hlen
          omega
        · intro hlen
          apply hparseE
          simp only [Run.after, List.length_append, List.length_cons, List.length_nil] at hlen
          omega
        · apply stops_after _ _ _ _ hstops
          intro u hu
          simp only [List.cons_append, List.nil_append, List.mem_cons, Request.get.injEq,
            List.mem_singleton, List.not_mem_nil, or_false] at hu
          rcases hu with rfl | rfl
          · exact ⟨resp, hgets⟩
          · exact ⟨resp2, hgetf⟩
        · intro info h
          have := hsucc info h
          simp only [Run.after, List.length_append, List.length_cons, List.length_nil, this]

/-- The order of the requests, whatever the remote answers: they are a prefix
of the GETs of started.json, finished.json, the top-level listing, the
artifacts listing and the e2e listing, in that order; a GET that ends in a
transport error is the last request and the result is an error; a result
without error has sent all five.  If the GET of started.json ends in a
transport error it is the only request, and if the top-level listing has no
link the result is the error "No top-level GCS links at ... found" after
three requests, none of them to an artifacts listing. -/
theorem getTarURLFromProw_fetch_order (L : Lib) (W : World) (baseURL : String) :
    (∃ startedURL finishedURL gcsURL artifactsURL e2eURL,
      (getTarURLFromProw L W baseURL).fetches
        <+: [.get startedURL, .get finishedURL, .get gcsURL, .get artifactsURL,
              .get e2eURL]
      ∧ (0 < (getTarURLFromProw L W baseURL).fetches.length →
          L.urlParse (strings.Replace baseURL prowPrefix gcsPrefix) = .ok gcsURL
            ∧ L.urlParse (gcsURL ++ "/started.json") = .ok startedURL)
      ∧ (1 < (getTarURLFromProw L W baseURL).fetches.length →
          L.urlParse (gcsURL ++ "/finished.json") = .ok finishedURL)
      ∧ (3 < (getTarURLFromProw L W baseURL).fetches.length →
          ∃ link, strings.HasSuffix link "artifacts/" = true
            ∧ L.urlParse (gcsPrefix ++ link) = .ok artifactsURL)
      ∧ (4 < (getTarURLFromProw L W baseURL).fetches.length →
          ∃ link, hasE2eSegment link = true ∧ L.urlParse (gcsPrefix ++ link) = .ok e2eURL))
    ∧ StopsAtFailure W (getTarURLFromProw L W baseURL)
    ∧ (∀ info, (getTarURLFromProw L W baseURL).out = some (info, none) →
        (getTarURLFromProw L W baseURL).fetches.length = 5)
    ∧ (∀ gcsURL startedURL msg,
        L.urlParse (strings.Replace baseURL prowPrefix gcsPrefix) = .ok gcsURL →
        L.urlParse (gcsURL ++ "/started.json") = .ok startedURL →
        W.get startedURL = .error msg →
        getTarURLFromProw L W baseURL
          = ⟨[.get startedURL],
              some ({}, some ("Failed to fetch test start time: "
                ++ ("Failed to fetch " ++ startedURL ++ ": " ++ msg)))⟩)
    ∧ (∀ gcsURL startedURL finishedURL startTime finishedTime,
        L.urlParse (strings.Replace baseURL prowPrefix gcsPrefix) = .ok gcsURL →
        getTimeStampFromProwJSON L W (gcsURL ++ "/started.json")
          = ([.get startedURL], .ok startTime) →
        getTimeStampFromProwJSON L W (gcsURL ++ "/finished.json")
          = ([.get finishedURL], .ok finishedTime) →
        getLinksFromURL L W gcsURL = ([.get gcsURL], .ok []) →
        getTarURLFromProw L W baseURL
          = ⟨[.get startedURL, .get finishedURL, .get gcsURL],
              some (⟨startTime, finishedTime, ""⟩,
                some ("No top-level GCS links at " ++ gcsURL ++ " found"))⟩) := by
  obtain ⟨hshape, hstops, hsucc⟩ := getTarURLFromProw_trace L W baseURL
  refine ⟨hshape, hstops, hsucc, ?_, ?_⟩
  · intro gcsURL startedURL msg hparse hps hget
    unfold getTarURLFromProw
    simp only [hparse, getTimeStampFromProwJSON, hps, hget]
  · intro gcsURL startedURL finishedURL startTime finishedTime hparse hstart hfinished htop
    rw [getTarURLFromProw_reach_top L W baseURL gcsURL startedURL finishedURL startTime
      finishedTime hparse hstart hfinished]
    unfold resolveTop
    simp only [htop]
    rfl

/-- Example of the order of requests: on a remote where nothing can be fetched the only request
is the GET of started.json, and with an empty top-level listing the
resolution stops after three requests. -/
theorem getTarURLFromProw_fetch_order_witness :
    (getTarURLFromProw demoLib ⟨fun _ => .error "timeout", fun _ => .error "timeout"⟩
        demoReport).fetches
      = [.get "https://gcsweb-ci.svc.ci.openshift.org/gcs/b/j/1/started.json"]
    ∧ getTarURLFromProw demoLib (demoWorld "" "" "" "" (.error "unused")) demoReport
      = ⟨[.get "https://gcsweb-ci.svc.ci.openshift.org/gcs/b/j/1/started.json",
            .get "https://gcsweb-ci.svc.ci.openshift.org/gcs/b/j/1/finished.json",
            .get "https://gcsweb-ci.svc.ci.openshift.org/gcs/b/j/1"],
          some (demoInfo,
            some ("No top-level GCS links at "
              ++ "https://gcsweb-ci.svc.ci.openshift.org/gcs/b/j/1" ++ " found"))⟩ :=
  ⟨congrArg Run.fetches
      ((getTarURLFromProw_fetch_order demoLib
        ⟨fun _ => .error "timeout", fun _ => .error "timeout"⟩ demoReport).2.2.2.1
        "https://gcsweb-ci.svc.ci.openshift.org/gcs/b/j/1"
        "https://gcsweb-ci.svc.ci.openshift.org/gcs/b/j/1/started.json" "timeout"
        rfl rfl rfl),
    (getTarURLFromProw_fetch_order demoLib (demoWorld "" "" "" "" (.error "unused"))
      demoReport).2.2.2.2
      "https://gcsweb-ci.svc.ci.openshift.org/gcs/b/j/1"
      "https://gcsweb-ci.svc.ci.openshift.org/gcs/b/j/1/started.json"
      "https://gcsweb-ci.svc.ci.openshift.org/gcs/b/j/1/finished.json"
      (.unix 100) (.unix 200) rfl rfl rfl rfl⟩

/-! ## Every failure the code tests for ends the run -/

/-- The timestamp fetcher fails exactly when the URL does not parse, the GET
ends in a transport error, the body cannot be read to its end, or the body
does not decode.  The status of the response is not among the causes. -/
theorem getTimeStampFromProwJSON_error_iff (L : Lib) (W : World) (rawURL : String) :
    (∃ err, (getTimeStampFromProwJSON L W rawURL).2 = .error err)
    ↔ ((∃ msg, L.urlParse rawURL = .error msg)
      ∨ ∃ jsonURL, L.urlParse rawURL = .ok jsonURL
          ∧ ((∃ msg, W.get jsonURL = .error msg)
            ∨ ∃ resp, W.get jsonURL = .ok resp
                ∧ (resp.Body.readErr ≠ none
                  ∨ ∃ msg, L.jsonUnmarshal resp.Body.data = .error msg))) := by
  unfold getTimeStampFromProwJSON
  rcases hp : L.urlParse rawURL with msg | jsonURL
  · simp
  · rcases hg : W.get jsonURL with msg | resp
    · simp [hg]
    · rcases hr : resp.Body.readErr with _ | e
      · rcases hj : L.jsonUnmarshal resp.Body.data with msg | ts
        · simp [hg, hr, hj]
        · simp [hg, hr, hj]
      · simp [hg, hr]

/-- A failure before the top-level listing ends the run with an error: the
report URL does not parse, or one of the two timestamps cannot be had, for
whichever of its causes.  No listing is requested. -/
theorem getTarURLFromProw_stops_before_listings (L : Lib) (W : World) (baseURL : String) :
    (∀ msg, L.urlParse (strings.Replace baseURL prowPrefix gcsPrefix) = .error msg →
      getTarURLFromProw L W baseURL
        = ⟨[], some ({}, some ("Failed to parse GCS URL "
            ++ strings.Replace baseURL prowPrefix gcsPrefix ++ ": " ++ msg))⟩)
    ∧ (∀ gcsURL err,
      L.urlParse (strings.Replace baseURL prowPrefix gcsPrefix) = .ok gcsURL →
      (getTimeStampFromProwJSON L W (gcsURL ++ "/started.json")).2 = .error err →
      getTarURLFromProw L W baseURL
        = ⟨(getTimeStampFromProwJSON L W (gcsURL ++ "/started.json")).1,
            some ({}, some ("Failed to fetch test start time: " ++ err))⟩)
    ∧ (∀ gcsURL startTime err,
      L.urlParse (strings.Replace baseURL prowPrefix gcsPrefix) = .ok gcsURL →
      (getTimeStampFromProwJSON L W (gcsURL ++ "/started.json")).2 = .ok startTime →
      (getTimeStampFromProwJSON L W (gcsURL ++ "/finished.json")).2 = .error err →
      getTarURLFromProw L W baseURL
        = ⟨(getTimeStampFromProwJSON L W (gcsURL ++ "/started.json")).1
              ++ (getTimeStampFromProwJSON L W (gcsURL ++ "/finished.json")).1,
            some (⟨startTime, .zero, ""⟩,
              some ("Failed to fetch test finshed time: " ++ err))⟩) := by
  refine ⟨?_, ?_, ?_⟩
  · intro msg hp
    unfold getTarURLFromProw
    simp only [hp]
  · intro gcsURL err hp hs
    unfold getTarURLFromProw
    simp only [hp, hs]
  · intro gcsURL startTime err hp hs hf
    unfold getTarURLFromProw
    simp only [hp, hs, hf]

/-- A failure at the top level ends the run with an error after the one GET
of the listing: the GET fails, or the listing has no link. -/
theorem resolveTop_stops (L : Lib) (W : World) (gcsURL : String) (prowInfo : ProwInfo) :
    (∀ err, (getLinksFromURL L W gcsURL).2 = .error err →
      resolveTop L W gcsURL prowInfo
        = ⟨[.get gcsURL], some (prowInfo,
            some ("Failed to fetch top-level GCS link at " ++ gcsURL ++ ": " ++ err))⟩)
    ∧ ((getLinksFromURL L W gcsURL).2 = .ok [] →
      resolveTop L W gcsURL prowInfo
        = ⟨[.get gcsURL], some (prowInfo,
            some ("No top-level GCS links at " ++ gcsURL ++ " found"))⟩) := by
  refine ⟨?_, ?_⟩
  · intro err h
    unfold resolveTop
    simp only [h, getLinksFromURL_fst]
  · intro h
    unfold resolveTop
    simp only [h, getLinksFromURL_fst]
    rfl

/-- A failure at the artifacts level ends the run with an error: the
artifacts URL does not parse (no request), the GET of the listing fails, or
the listing has no link (one request). -/
theorem resolveArtifacts_stops (L : Lib) (W : World) (gcsURL : String)
    (prowInfo : ProwInfo) (tmpArtifactsURL : String) :
    (∀ msg, L.urlParse tmpArtifactsURL = .error msg →
      resolveArtifacts L W gcsURL prowInfo tmpArtifactsURL
        = ⟨[], some (prowInfo,
            some ("Failed to parse artifacts link " ++ tmpArtifactsURL ++ ": " ++ msg))⟩)
    ∧ (∀ artifactsURL err, L.urlParse tmpArtifactsURL = .ok artifactsURL →
      (getLinksFromURL L W artifactsURL).2 = .error err →
      resolveArtifacts L W gcsURL prowInfo tmpArtifactsURL
        = ⟨[.get artifactsURL], some (prowInfo,
            some ("Failed to fetch artifacts link at " ++ gcsURL ++ ": " ++ err))⟩)
    ∧ (∀ artifactsURL, L.urlParse tmpArtifactsURL = .ok artifactsURL →
      (getLinksFromURL L W artifactsURL).2 = .ok [] →
      resolveArtifacts L W gcsURL prowInfo tmpArtifactsURL
        = ⟨[.get artifactsURL], some (prowInfo,
            some ("No artifact links at " ++ gcsURL ++ " found"))⟩) := by
  refine ⟨?_, ?_, ?_⟩
  · intro msg hp
    unfold resolveArtifacts
    simp only [hp]
  · intro artifactsURL err hp h
    unfold resolveArtifacts
    simp only [hp, h, getLinksFromURL_fst]
  · intro artifactsURL hp h
    unfold resolveArtifacts
    simp only [hp, h, getLinksFromURL_fst]
    rfl

/-- A failure at the e2e level ends the run with an error: the e2e URL does
not parse (no request), the GET of the listing fails, the listing has no
link, or the URL of the gather-extra link does not parse (one request); and
so does a metrics URL that does not parse. -/
theorem resolveE2e_stops (L : Lib) (W : World) (prowInfo : ProwInfo) (tmpE2eURL : String) :
    (∀ msg, L.urlParse tmpE2eURL = .error msg →
      resolveE2e L W prowInfo tmpE2eURL
        = ⟨[], some (prowInfo,
            some ("Failed to parse e2e link " ++ tmpE2eURL ++ ": " ++ msg))⟩)
    ∧ (∀ e2eURL err, L.urlParse tmpE2eURL = .ok e2eURL →
      (getLinksFromURL L W e2eURL).2 = .error err →
      resolveE2e L W prowInfo tmpE2eURL
        = ⟨[.get e2eURL], some (prowInfo,
            some ("Failed to fetch artifacts link at " ++ e2eURL ++ ": " ++ err))⟩)
    ∧ (∀ e2eURL, L.urlParse tmpE2eURL = .ok e2eURL →
      (getLinksFromURL L W e2eURL).2 = .ok [] →
      resolveE2e L W prowInfo tmpE2eURL
        = ⟨[.get e2eURL], some (prowInfo, some ("No top links at " ++ e2eURL ++ " found"))⟩)
    ∧ (∀ e2eURL links tmpE2eURL2 msg, L.urlParse tmpE2eURL = .ok e2eURL →
      (getLinksFromURL L W e2eURL).2 = .ok links → links ≠ [] →
      findExtra links = some (some tmpE2eURL2) →
      L.urlParse tmpE2eURL2 = .error msg →
      resolveE2e L W prowInfo tmpE2eURL
        = ⟨[.get e2eURL], some (prowInfo,
            some ("Failed to parse e2e link " ++ tmpE2eURL2 ++ ": " ++ msg))⟩)
    ∧ (∀ e2eURL msg,
      L.urlParse (strings.Replace (e2eURL ++ promTarPath) (gcsPrefix ++ "/gcs")
        storagePrefix) = .error msg →
      resolveMetrics L prowInfo e2eURL
        = (prowInfo, some ("Failed to parse metrics link "
            ++ strings.Replace (e2eURL ++ promTarPath) (gcsPrefix ++ "/gcs") storagePrefix
            ++ ": " ++ msg))) := by
  refine ⟨?_, ?_, ?_, ?_, ?_⟩
  · intro msg hp
    unfold resolveE2e
    simp only [hp]
  · intro e2eURL err hp h
    unfold resolveE2e
    simp only [hp, h, getLinksFromURL_fst]
  · intro e2eURL hp h
    unfold resolveE2e
    simp only [hp, h, getLinksFromURL_fst]
    rfl
  · intro e2eURL links tmpE2eURL2 msg hp h hne hfind hp2
    unfold resolveE2e
    simp only [hp, h, getLinksFromURL_fst, hfind, hp2]
    rw [if_neg (by simpa using hne)]
  · intro e2eURL msg hp
    unfold resolveMetrics
    simp only [hp]

/-- C5, the code at the failing input: started.json is missing, its GET is
answered `404 Not Found` with a body that decodes.  The claim says that the
resolution stops there with an error and that no listing is fetched; the
code never reads the status, takes the decoded timestamp, fetches all three
listings and returns the metrics URL with a nil error. -/
theorem getTarURLFromProw_continues_after_missing_started :
    missingStartedWorld.get "https://gcsweb-ci.svc.ci.openshift.org/gcs/b/j/1/started.json"
      = .ok ⟨"404 Not Found", 404, none, ⟨"0", none⟩⟩
    ∧ (getTarURLFromProw demoLib missingStartedWorld demoReport).fetches
      = [.get "https://gcsweb-ci.svc.ci.openshift.org/gcs/b/j/1/started.json",
          .get "https://gcsweb-ci.svc.ci.openshift.org/gcs/b/j/1/finished.json",
          .get "https://gcsweb-ci.svc.ci.openshift.org/gcs/b/j/1",
          .get "https://gcsweb-ci.svc.ci.openshift.org/gcs/b/j/1/artifacts/",
          .get "https://gcsweb-ci.svc.ci.openshift.org/gcs/b/j/1/artifacts/e2e-aws/"]
    ∧ (getTarURLFromProw demoLib missingStartedWorld demoReport).out
      = some (⟨.unix 0, .unix 200, demoMetricsURL⟩, none) := by
  refine ⟨rfl, by decide, by decide⟩

end Promecieus
